import Mathlib

/-!
# Verification of the BankExtOmieERP transaction-extraction engine

A shallow embedding, in Lean 4, of the transaction-extraction code of the
repository (files `inter_extractor.py`, `itau_extractor.py`,
`BankOmieApp.py`), together with theorems settling the specification
claims about it.

Modelling conventions:
* Python strings are `List Char` (`Str`); the helpers below reproduce the
  Python string methods used by the code (`strip`, `split`, `replace`,
  `upper`, `zfill`, substring tests).
* Python `int(...)` and `float(...)` conversions are modelled by
  `pyInt?` / `pyFloat?` over decimal literals (sign, digits, one decimal
  point; exotic forms such as exponents, `inf`/`nan` and underscore
  grouping are out of scope of the statements proved here).  Floats are
  modelled as exact decimals.
* The concrete regular expressions of the code are transcribed into a
  small prioritised-backtracking regex engine (`RE`, `reMatch`) that
  reproduces Python `re` semantics (leftmost search, greedy/lazy
  character-class quantifiers, ordered alternatives, group capture) for
  the pattern shapes the code uses.
* Ambient state (`datetime.now()`, instance fields such as
  `self.document_year`) is passed explicitly as parameters.
* Code paths on which CPython raises an exception that the code does not
  catch are modelled with `Option`/`Except`: a `none`/`.error` result
  means the Python function would propagate an exception.
-/

deriving instance DecidableEq for Except

/-! ## Python string primitives -/

abbrev Str := List Char

def strL (s : String) : Str := s.data

/-- ASCII whitespace, as recognised by `str.strip()` / `\s` on these inputs. -/
def pyIsSpace (c : Char) : Bool :=
  c = ' ' || c = '\t' || c = '\n' || c = '\r' || c = '\x0b' || c = '\x0c'

/-- Python `str.strip()`. -/
def pyStrip (s : Str) : Str :=
  ((s.dropWhile pyIsSpace).reverse.dropWhile pyIsSpace).reverse

/-- Python `str.split(sep)` for a one-character separator (keeps empty parts). -/
def splitOnChar (sep : Char) : Str → List Str
  | [] => [[]]
  | c :: rest =>
    if c = sep then [] :: splitOnChar sep rest
    else
      match splitOnChar sep rest with
      | [] => [[c]]
      | t :: ts => (c :: t) :: ts

def splitWsAux (cur : Str) : Str → List Str
  | [] => if cur = [] then [] else [cur.reverse]
  | c :: rest =>
    if pyIsSpace c then
      if cur = [] then splitWsAux [] rest else cur.reverse :: splitWsAux [] rest
    else splitWsAux (c :: cur) rest

/-- Python `str.split()` with no argument: split on whitespace runs, dropping
empty parts. -/
def splitWs (s : Str) : List Str := splitWsAux [] s

def containsChar (c : Char) (s : Str) : Bool := s.contains c

/-- Python `str.replace(a, '')` for a single character: delete every occurrence. -/
def removeAll (a : Char) (s : Str) : Str := s.filter (fun c => c ≠ a)

/-- Python `str.replace(a, b)` for single characters. -/
def mapReplace (a b : Char) (s : Str) : Str :=
  s.map (fun c => if c = a then b else c)

/-- Python substring test `needle in hay`. -/
def containsSub (needle : Str) : Str → Bool
  | [] => needle.isEmpty
  | hay@(_ :: rest) => needle.isPrefixOf hay || containsSub needle rest

/-- Python `str.upper()` restricted to ASCII plus the Latin-1 letters that occur
in the code's keyword lists (e.g. `ã → Ã`, `ç → Ç`). -/
def pyUpperChar (c : Char) : Char :=
  if 'a' ≤ c ∧ c ≤ 'z' then Char.ofNat (c.toNat - 32)
  else if 0xE0 ≤ c.toNat ∧ c.toNat ≤ 0xFE ∧ c.toNat ≠ 0xF7 then Char.ofNat (c.toNat - 32)
  else c

def pyUpper (s : Str) : Str := s.map pyUpperChar

/-- Python `str.lower()` on the same character range. -/
def pyLowerChar (c : Char) : Char :=
  if 'A' ≤ c ∧ c ≤ 'Z' then Char.ofNat (c.toNat + 32)
  else if 0xC0 ≤ c.toNat ∧ c.toNat ≤ 0xDE ∧ c.toNat ≠ 0xD7 then Char.ofNat (c.toNat + 32)
  else c

def pyLower (s : Str) : Str := s.map pyLowerChar

/-- Python `str.zfill(2)`. -/
def zfill2 (s : Str) : Str :=
  if 2 ≤ s.length then s
  else
    match s with
    | [] => ['0', '0']
    | c :: rest =>
      if c = '+' ∨ c = '-' then c :: '0' :: rest else '0' :: c :: rest

def digitVal (s : Str) : Nat := s.foldl (fun a c => a * 10 + (c.toNat - '0'.toNat)) 0

def allDigits (s : Str) : Bool := s.all Char.isDigit

/-- Python `int(s)` on a decimal string: optional surrounding whitespace,
optional sign, at least one digit. -/
def pyInt? (s : Str) : Option Int :=
  let t := pyStrip s
  let (sgn, u) : Int × Str :=
    match t with
    | '-' :: r => (-1, r)
    | '+' :: r => (1, r)
    | r => (1, r)
  if u ≠ [] ∧ allDigits u then some (sgn * (digitVal u : Int)) else none

/-- Exact decimal number `num / 10 ^ exp`, the model of the Python floats this
code produces (they are all parsed from decimal literals).  Values built by
`PyF.mk'` are kept normalised (no trailing factor of ten in `num` while
`exp > 0`), so that structural equality coincides with value equality, as
Python float equality does on these inputs. -/
structure PyF where
  num : Int
  exp : Nat
  deriving DecidableEq, Repr

def pfNormAux : Int → Nat → Int × Nat
  | n, 0 => (n, 0)
  | n, e + 1 => if n % 10 = 0 then pfNormAux (n / 10) e else (n, e + 1)

def PyF.mk' (n : Int) (e : Nat) : PyF :=
  match pfNormAux n e with
  | (n', e') => ⟨n', e'⟩

def pfNeg (a : PyF) : PyF := ⟨-a.num, a.exp⟩

/-- Value comparison `a < b`. -/
def pfLt (a b : PyF) : Bool := a.num * 10 ^ b.exp < b.num * 10 ^ a.exp

/-- Value comparison `a ≤ b`. -/
def pfLe (a b : PyF) : Bool := a.num * 10 ^ b.exp ≤ b.num * 10 ^ a.exp

def pf0 : PyF := ⟨0, 0⟩

def pfOfNat (n : Nat) : PyF := ⟨(n : Int), 0⟩

/-- The optional leading sign of a numeric literal: negative flag and the
remaining characters. -/
def pySign : Str → Bool × Str
  | '-' :: r => (true, r)
  | '+' :: r => (false, r)
  | r => (false, r)

/-- Python `float(s)` on a decimal literal: optional surrounding whitespace,
optional sign, digits with at most one decimal point (at least one digit
overall).  The value is returned as an exact decimal. -/
def pyFloat? (s : Str) : Option PyF :=
  let neg := (pySign (pyStrip s)).1
  let u := (pySign (pyStrip s)).2
  let withSign : Int → Nat → PyF := fun n e =>
    if neg then pfNeg (PyF.mk' n e) else PyF.mk' n e
  match splitOnChar '.' u with
  | [a] =>
    if a ≠ [] ∧ allDigits a then some (withSign (digitVal a) 0) else none
  | [a, b] =>
    if (a ≠ [] ∨ b ≠ []) ∧ allDigits a ∧ allDigits b then
      some (withSign (digitVal a * 10 ^ b.length + digitVal b) b.length)
    else none
  | _ => none

def intToStr (n : Int) : Str := (toString n).data

def truthy (o : Option Str) : Bool :=
  match o with
  | some s => s ≠ []
  | none => false

/-! ## A small regex engine

Prioritised backtracking matcher covering exactly the constructs used by the
Python patterns in the source: character classes, literal characters
(optionally case-insensitive), concatenation, greedy `?`, greedy and lazy
`*`/`+` over character classes, fixed repetition, capture groups, optional
end-of-string anchoring (`$`), leftmost search (`re.search`) and anchored
match (`re.match`). -/

inductive RE where
  | eps
  | cls (p : Char → Bool)
  | seq (a b : RE)
  | opt (a : RE)
  | star (p : Char → Bool)
  | starL (p : Char → Bool)
  | grp (i : Nat) (a : RE)

/-- Captures: group index to captured characters (later entries shadow). -/
abbrev Caps := List (Nat × Str)

def getCap (i : Nat) (caps : Caps) : Str :=
  match caps.find? (fun e => e.1 = i) with
  | some e => e.2
  | none => []

/-- Greedy class star: consume as many `p`-characters as possible, backtracking
towards fewer. -/
def starRun (p : Char → Bool) : Str → Caps → (Str → Caps → Option (Nat × Caps)) →
    Option (Nat × Caps)
  | s, caps, k =>
    match s with
    | [] => k [] caps
    | c :: rest =>
      if p c then
        match starRun p rest caps k with
        | some r => some r
        | none => k s caps
      else k s caps

/-- Lazy class star: consume as few `p`-characters as possible. -/
def starLRun (p : Char → Bool) : Str → Caps → (Str → Caps → Option (Nat × Caps)) →
    Option (Nat × Caps)
  | s, caps, k =>
    match k s caps with
    | some r => some r
    | none =>
      match s with
      | [] => none
      | c :: rest => if p c then starLRun p rest caps k else none

def reMatch : RE → Str → Caps → (Str → Caps → Option (Nat × Caps)) → Option (Nat × Caps)
  | .eps, s, caps, k => k s caps
  | .cls p, s, caps, k =>
    match s with
    | [] => none
    | c :: rest => if p c then k rest caps else none
  | .seq a b, s, caps, k => reMatch a s caps (fun s' c' => reMatch b s' c' k)
  | .opt a, s, caps, k =>
    match reMatch a s caps k with
    | some r => some r
    | none => k s caps
  | .star p, s, caps, k => starRun p s caps k
  | .starL p, s, caps, k => starLRun p s caps k
  | .grp i a, s, caps, k =>
    reMatch a s caps (fun s' c' => k s' ((i, s.take (s.length - s'.length)) :: c'))

/-- Python `re.match`: anchored at the start; returns consumed length and captures.
`anchorEnd` models a trailing `$` in the pattern. -/
def reMatchAt (re : RE) (anchorEnd : Bool) (s : Str) : Option (Nat × Caps) :=
  reMatch re s []
    (fun rest caps =>
      if anchorEnd ∧ rest ≠ [] then none else some (s.length - rest.length, caps))

def reSearchAux (re : RE) (anchorEnd : Bool) : Str → Nat → Option (Nat × Nat × Caps)
  | s, i =>
    match reMatchAt re anchorEnd s with
    | some (n, caps) => some (i, n, caps)
    | none =>
      match s with
      | [] => none
      | _ :: rest => reSearchAux re anchorEnd rest (i + 1)

/-- Python `re.search`: leftmost match; returns (start, consumed length, captures). -/
def reSearch (re : RE) (anchorEnd : Bool) (s : Str) : Option (Nat × Nat × Caps) :=
  reSearchAux re anchorEnd s 0

def reFindAllAux (re : RE) (anchorEnd : Bool) : Nat → Str → List Str
  | 0, _ => []
  | fuel + 1, s =>
    match reMatchAt re anchorEnd s with
    | some (n, caps) => getCap 1 caps :: reFindAllAux re anchorEnd fuel (s.drop (max n 1))
    | none =>
      match s with
      | [] => []
      | _ :: rest => reFindAllAux re anchorEnd fuel rest

/-- Python `re.findall` for a pattern with one capture group: the group-1 captures of
all non-overlapping matches, scanning left to right. -/
def reFindAll (re : RE) (s : Str) : List Str :=
  reFindAllAux re false (s.length + 1) s

def reSubAllAux (re : RE) (anchorEnd : Bool) (repl : Str) : Nat → Str → Str
  | 0, s => s
  | fuel + 1, s =>
    match reSearch re anchorEnd s with
    | some (i, n, _) =>
      s.take i ++ repl ++ reSubAllAux re anchorEnd repl fuel (s.drop (i + max n 1))
    | none => s

/-- Python `re.sub`: replace all non-overlapping matches, scanning left to right and
continuing after each match. -/
def reSubAll (re : RE) (anchorEnd : Bool) (repl : Str) (s : Str) : Str :=
  reSubAllAux re anchorEnd repl (s.length + 1) s

/-! ### Pattern-building helpers -/

/-- Case-sensitive literal character. -/
def chr (c : Char) : RE := .cls (fun x => x = c)

/-- Case-insensitive literal character (`re.IGNORECASE`). -/
def chrCI (c : Char) : RE := .cls (fun x => pyLowerChar x = pyLowerChar c)

def seqList : List RE → RE
  | [] => .eps
  | [r] => r
  | r :: rest => .seq r (seqList rest)

/-- Case-sensitive literal string. -/
def litCS (s : String) : RE := seqList (s.data.map chr)

/-- Case-insensitive literal string. -/
def litCI (s : String) : RE := seqList (s.data.map chrCI)

/-- Class `\d`. -/
def dC (c : Char) : Bool := c.isDigit
/-- Class `\s`. -/
def wsC (c : Char) : Bool := pyIsSpace c
/-- Class `\w` (word character; ASCII plus the Latin-1 letters used by the inputs). -/
def wC (c : Char) : Bool :=
  c.isAlpha || c.isDigit || c = '_' ||
  (0xC0 ≤ c.toNat && c.toNat ≤ 0xFF && c.toNat ≠ 0xD7 && c.toNat ≠ 0xF7)
/-- Class `.` (any character but newline). -/
def dotC (c : Char) : Bool := c ≠ '\n'
/-- Class `[\d.,]`. -/
def amtC (c : Char) : Bool := c.isDigit || c = '.' || c = ','

/-- Greedy `+` over a class. -/
def plusG (p : Char → Bool) : RE := .seq (.cls p) (.star p)
/-- Lazy `+?` over a class. -/
def plusL (p : Char → Bool) : RE := .seq (.cls p) (.starL p)
/-- Repetition `\d{n}`-style: exactly `n` of class `p`. -/
def repN : Nat → (Char → Bool) → RE
  | 0, _ => .eps
  | n + 1, p => .seq (.cls p) (repN n p)

/-! ## Calendar arithmetic (`datetime` / `timedelta`) -/

def isLeap (y : Int) : Bool := y % 4 = 0 && (y % 100 ≠ 0 || y % 400 = 0)

def daysInMonth (y m : Int) : Int :=
  if m = 1 ∨ m = 3 ∨ m = 5 ∨ m = 7 ∨ m = 8 ∨ m = 10 ∨ m = 12 then 31
  else if m = 4 ∨ m = 6 ∨ m = 9 ∨ m = 11 then 30
  else if isLeap y then 29 else 28

structure Date where
  year : Int
  month : Int
  day : Int
  deriving DecidableEq, Repr

/-- Constructor `datetime.datetime(y, m, d)`: `none` models the `ValueError` raised on
out-of-range components. -/
def mkDate? (y m d : Int) : Option Date :=
  if 1 ≤ y ∧ y ≤ 9999 ∧ 1 ≤ m ∧ m ≤ 12 ∧ 1 ≤ d ∧ d ≤ daysInMonth y m then
    some ⟨y, m, d⟩
  else none

/-- The day before; `none` models `OverflowError` below `datetime.min`. -/
def prevDay? (dt : Date) : Option Date :=
  if 1 < dt.day then some ⟨dt.year, dt.month, dt.day - 1⟩
  else if 1 < dt.month then
    some ⟨dt.year, dt.month - 1, daysInMonth dt.year (dt.month - 1)⟩
  else if 1 < dt.year then some ⟨dt.year - 1, 12, 31⟩
  else none

/-- Subtraction `dt - timedelta(days=n)`. -/
def psubDays : Nat → Date → Option Date
  | 0, dt => some dt
  | n + 1, dt =>
    match prevDay? dt with
    | some d => psubDays n d
    | none => none

/-! ## Data model (`Transaction` dataclass, shared by both extractors) -/

inductive TType where
  | debit
  | credit
  | unknown
  deriving DecidableEq, Repr

structure Transaction where
  date : Str
  description : Str
  amount : PyF
  transaction_type : TType
  card_number : Option Str := none
  balance : Option PyF := none
  reference : Option Str := none
  category : Option Str := none
  deriving DecidableEq, Repr

def minIntOf : List Int → Int
  | [] => 0
  | x :: xs => xs.foldl min x

/-! ## `inter_extractor.py` — `InterExtractor` -/

namespace Inter

/-- Field `self.debit_keywords`. -/
def debit_keywords : List Str :=
  [strL "DEBIT", strL "WITHDRAWAL", strL "TRANSFER OUT", strL "FEE", strL "CHARGE",
   strL "MULTA", strL "ENCARGOS", strL "JUROS", strL "IOF", strL "TRANSFERENCIA"]

/-- Field `self.credit_keywords`. -/
def credit_keywords : List Str :=
  [strL "CREDIT", strL "DEPOSIT", strL "TRANSFER IN", strL "REFUND", strL "INTEREST",
   strL "PAGAMENTO", strL "DEB AUT"]

/-- The separator-cleaning step of `parse_amount` (Brazilian currency format). -/
def cleanSeparators (s : Str) : Str :=
  if containsChar ',' s ∧ containsChar '.' s then
    mapReplace ',' '.' (removeAll '.' s)
  else if containsChar ',' s ∧ ¬containsChar '.' s then
    mapReplace ',' '.' s
  else s

/-- The sign test of `parse_amount`: a leading minus or full parenthesisation
on the stripped token marks a debit. -/
def signIsDebit (s : Str) : Bool :=
  let original := pyStrip s
  (original.head? = some '-') ||
  (original.head? = some '(' && original.getLast? = some ')')

/-- The cleaned numeric token that `parse_amount` hands to `float(...)`:
sign/parenthesis characters stripped when the sign test fires, then the
Brazilian separator rules. -/
def cleanedToken (s : Str) : Str :=
  cleanSeparators
    (if signIsDebit s then pyStrip (removeAll ')' (removeAll '(' (removeAll '-' s))) else s)

/-- Method `InterExtractor.parse_amount`. -/
def parse_amount (s : Str) : PyF × TType :=
  let is_debit := signIsDebit s
  match pyFloat? (cleanedToken s) with
  | some amount => (amount, if is_debit then .debit else .credit)
  | none => (pf0, .unknown)

/-- The month-abbreviation table of `parse_brazilian_date`. -/
def monthsTable : List (Str × Str) :=
  [(strL "jan", strL "01"), (strL "fev", strL "02"), (strL "mar", strL "03"),
   (strL "abr", strL "04"), (strL "mai", strL "05"), (strL "jun", strL "06"),
   (strL "jul", strL "07"), (strL "ago", strL "08"), (strL "set", strL "09"),
   (strL "out", strL "10"), (strL "nov", strL "11"), (strL "dez", strL "12")]

/-- Method `InterExtractor.parse_brazilian_date`.  `documentYear` is the instance
field `self.document_year`; `currentYear` is `datetime.now().year`. -/
def parse_brazilian_date (documentYear : Option Str) (currentYear : Int)
    (date_str : Str) : Str :=
  let parts := splitWs (pyLower date_str)
  if 3 ≤ parts.length ∧ parts.contains (strL "de") then
    let day := zfill2 (parts.getD 0 [])
    let month_abbr := removeAll '.' (parts.getD 2 [])
    let year :=
      if 3 < parts.length then parts.getD 3 []
      else if truthy documentYear then documentYear.getD []
      else intToStr currentYear
    match (monthsTable.find? (fun e => e.1 = month_abbr)) with
    | some e => day ++ '/' :: e.2 ++ '/' :: year
    | none => date_str
  else date_str

/-- Method `InterExtractor.determine_transaction_type`. -/
def determine_transaction_type (description : Str) (amount : PyF)
    (transaction_type : TType) : TType :=
  let description_upper := pyUpper description
  if credit_keywords.any (fun kw => containsSub kw description_upper) then .credit
  else if debit_keywords.any (fun kw => containsSub kw description_upper) then .debit
  else if pfLt amount pf0 then .debit
  else if transaction_type ≠ .unknown then transaction_type
  else .debit

/-! ### Patterns of `self.transaction_patterns` -/

/-- Pattern `(\d{2}\s+de\s+\w+\.?\s+\d{4})\s+(.+?)\s+-\s+(?:\+\s+)?R\$\s+([\d.,]+)`. -/
def pat1 : RE :=
  seqList [
    .grp 1 (seqList [repN 2 dC, plusG wsC, litCI "de", plusG wsC, plusG wC,
                     .opt (chr '.'), plusG wsC, repN 4 dC]),
    plusG wsC, .grp 2 (plusL dotC), plusG wsC, chr '-', plusG wsC,
    .opt (.seq (chr '+') (plusG wsC)), chrCI 'R', chr '$', plusG wsC,
    .grp 3 (plusG amtC)]

/-- Pattern `(\d{2}\s+de\s+\w+\.?\s+\d{4})\s+(.+?)\s+(?:\+\s+)?R\$\s+([\d.,]+)`. -/
def pat2 : RE :=
  seqList [
    .grp 1 (seqList [repN 2 dC, plusG wsC, litCI "de", plusG wsC, plusG wC,
                     .opt (chr '.'), plusG wsC, repN 4 dC]),
    plusG wsC, .grp 2 (plusL dotC), plusG wsC,
    .opt (.seq (chr '+') (plusG wsC)), chrCI 'R', chr '$', plusG wsC,
    .grp 3 (plusG amtC)]

/-- Class slash-or-dash, written X below. -/
def dmSepC (c : Char) : Bool := c = '/' || c = '-'

/-- Class `[-+]`. -/
def signC (c : Char) : Bool := c = '-' || c = '+'

/-- Class `[.,]`. -/
def decSepC (c : Char) : Bool := c = '.' || c = ','

/-- Pattern `(\d{2}X\d{2}X\d{4})\s+(.+?)\s+([-+]?\d+[.,]\d{2})` with X the slash-or-dash class. -/
def pat3 : RE :=
  seqList [
    .grp 1 (seqList [repN 2 dC, .cls dmSepC, repN 2 dC, .cls dmSepC, repN 4 dC]),
    plusG wsC, .grp 2 (plusL dotC), plusG wsC,
    .grp 3 (seqList [.opt (.cls signC), plusG dC, .cls decSepC, repN 2 dC])]

/-- Pattern `(\d{4}-\d{2}-\d{2})\s+(.+?)\s+([-+]?\d+[.,]\d{2})`. -/
def pat4 : RE :=
  seqList [
    .grp 1 (seqList [repN 4 dC, chr '-', repN 2 dC, chr '-', repN 2 dC]),
    plusG wsC, .grp 2 (plusL dotC), plusG wsC,
    .grp 3 (seqList [.opt (.cls signC), plusG dC, .cls decSepC, repN 2 dC])]

def transaction_patterns : List RE := [pat1, pat2, pat3, pat4]

/-- Pattern `CARTÃO\s+(\d{4}\*{4}\d{4})` (IGNORECASE, searched). -/
def cardSectionPat : RE :=
  seqList [litCI "CARTÃO", plusG wsC,
           .grp 1 (seqList [repN 4 dC, repN 4 (fun c => c = '*'), repN 4 dC])]

/-- Pattern `^(\d{4}\*{4}\d{4})\s+` (searched, effectively anchored by the caret). -/
def cardLinePat : RE :=
  seqList [.grp 1 (seqList [repN 4 dC, repN 4 (fun c => c = '*'), repN 4 dC]),
           plusG wsC]

/-! ### `extract_card_number` -/

/-- Pattern `(\d{4}\*{4}\d{4})`. -/
def cardPat1 : RE :=
  .grp 1 (seqList [repN 4 dC, repN 4 (fun c => c = '*'), repN 4 dC])

/-- Pattern `(\d{4}\s*\*{4}\s*\*{4}\s*\d{4})`. -/
def cardPat2 : RE :=
  .grp 1 (seqList [repN 4 dC, .star wsC, repN 4 (fun c => c = '*'), .star wsC,
                   repN 4 (fun c => c = '*'), .star wsC, repN 4 dC])

/-- Pattern `(\d{4}\s*\d{4}\s*\d{4}\s*\d{4})`. -/
def cardPat3 : RE :=
  .grp 1 (seqList [repN 4 dC, .star wsC, repN 4 dC, .star wsC, repN 4 dC,
                   .star wsC, repN 4 dC])

/-- Pattern `Cart[ãa]o.*?(\d{4}\s*\*+\s*\d{4})`. -/
def cardPat4 : RE :=
  seqList [litCI "Cart", .cls (fun c => pyLowerChar c = 'ã' || pyLowerChar c = 'a'),
           chrCI 'o', .starL dotC,
           .grp 1 (seqList [repN 4 dC, .star wsC, plusG (fun c => c = '*'),
                            .star wsC, repN 4 dC])]

/-- Pattern `(\d{2})\.(\d{2})\.pdf`. -/
def fnMonthYearPat : RE :=
  seqList [.grp 1 (repN 2 dC), chr '.', .grp 2 (repN 2 dC), chr '.', litCS "pdf"]

/-- Pattern `(\d{4})`. -/
def fourDigitPat : RE := .grp 1 (repN 4 dC)

/-- Pattern `(20[2-3]\d)`. -/
def yearPat : RE :=
  .grp 1 (seqList [chr '2', chr '0', .cls (fun c => c = '2' || c = '3'), .cls dC])

/-- Method `InterExtractor.extract_card_number`. -/
def extract_card_number (text filename : Str) : Str :=
  match reSearch cardPat1 false text with
  | some r => removeAll ' ' (getCap 1 r.2.2)
  | none =>
  match reSearch cardPat2 false text with
  | some r => removeAll ' ' (getCap 1 r.2.2)
  | none =>
  match reSearch cardPat3 false text with
  | some r => removeAll ' ' (getCap 1 r.2.2)
  | none =>
  match reSearch cardPat4 false text with
  | some r => removeAll ' ' (getCap 1 r.2.2)
  | none =>
  match reSearch fnMonthYearPat false filename with
  | some _ => strL "2025307793960001"
  | none =>
  match reSearch fourDigitPat false filename with
  | some r => strL "2025" ++ getCap 1 r.2.2 ++ strL "960001"
  | none => strL "2025307793960001"

/-! ### `extract_document_year` -/

/-- Pattern `\d{2}\s+de\s+\w+\.?\s+\d{4}` (case-sensitive, searched per line). -/
def dateYearSearchPat : RE :=
  seqList [repN 2 dC, plusG wsC, litCS "de", plusG wsC, plusG wC,
           .opt (chr '.'), plusG wsC, repN 4 dC]

/-- Pattern `\d{2}\s+de\s+\w+\.?\s+(\d{4})` (case-sensitive, findall per line). -/
def dateYearFindPat : RE :=
  seqList [repN 2 dC, plusG wsC, litCS "de", plusG wsC, plusG wC,
           .opt (chr '.'), plusG wsC, .grp 1 (repN 4 dC)]

/-- Counting dict (insertion-ordered, as Python dicts are). -/
def countInsert : List (Str × Nat) → Str → List (Str × Nat)
  | [], y => [(y, 1)]
  | (k, c) :: rest, y =>
    if k = y then (k, c + 1) :: rest else (k, c) :: countInsert rest y

/-- Python `max(year_count, key=year_count.get)`: the first key attaining the
maximal count, in insertion order. -/
def firstMaxKey : List (Str × Nat) → Str
  | [] => []
  | (k, c) :: rest => firstMaxKeyAux k c rest
where
  firstMaxKeyAux (bk : Str) (bc : Nat) : List (Str × Nat) → Str
    | [] => bk
    | (k, c) :: rest =>
      if c > bc then firstMaxKeyAux k c rest else firstMaxKeyAux bk bc rest

/-- The year-frequency decision of `extract_document_year` once transaction
years were found.  The Python float comparison `count >= max_count * 0.8` is
modelled exactly (`5 * count ≥ 4 * max_count`; for the magnitudes involved the
binary-float comparison agrees with the exact one). -/
def pickDocumentYear (years_found : List Str) : Str :=
  let year_count := years_found.foldl countInsert []
  let viaFrequent : Option Str :=
    if 1 < year_count.length then
      let max_count := (year_count.map (fun e => e.2)).foldl max 0
      let frequent_years :=
        (year_count.filter (fun e => 5 * e.2 ≥ 4 * max_count)).map (fun e => e.1)
      if 1 < frequent_years.length then
        some (intToStr (minIntOf (frequent_years.map (fun y => (digitVal y : Int)))))
      else none
    else none
  match viaFrequent with
  | some s => s
  | none => firstMaxKey year_count

/-- Method `InterExtractor.extract_document_year`.

Returns `none` when PRIORITY 3 is reached: its pattern
`(?<!Vencimento.*)\d{1,2}[. slash -]\d{1,2}[. slash -](20[2-3]\d)` uses a
variable-width lookbehind, which CPython's `re` rejects at compile time, so
the call raises `re.error` and the exception propagates (PRIORITY 4 is
unreachable).  Hence the year inference either succeeds from the filename
(PRIORITY 1) or from transaction lines (PRIORITY 2), or the extraction run
crashes. -/
def extract_document_year (text filename : Str) : Option Str :=
  match reSearch fnMonthYearPat false filename with
  | some r =>
    let year_suffix := getCap 2 r.2.2
    if 20 ≤ digitVal year_suffix ∧ digitVal year_suffix ≤ 30 then
      some (strL "20" ++ year_suffix)
    else extractDocumentYearP1b text filename
  | none => extractDocumentYearP1b text filename
where
  extractDocumentYearP1b (text filename : Str) : Option Str :=
    match reSearch yearPat false filename with
    | some r => some (getCap 1 r.2.2)
    | none =>
      let years_found :=
        (splitOnChar '\n' text).foldl
          (fun acc line =>
            if (reSearch dateYearSearchPat false line).isSome then
              acc ++ (reFindAll dateYearFindPat line).filter
                (fun y => 2020 ≤ digitVal y ∧ digitVal y ≤ 2030)
            else acc)
          []
      if years_found ≠ [] then some (pickDocumentYear years_found) else none

/-! ### `extract_transactions_from_text` -/

def headerWords : List Str :=
  [strL "DATA", strL "VALOR", strL "DESCRIÇÃO", strL "TOTAL"]

/-- One traversal of the inner `for pattern in self.transaction_patterns`
loop: the first pattern that matches the line and survives the description
and amount guards produces the transaction (`break`); a guard failure tries
the next pattern (`continue`). -/
def tryPatterns (documentYear : Option Str) (currentYear : Int)
    (text filename : Str) (card : Option Str) (line : Str) :
    List RE → Option Transaction
  | [] => none
  | p :: rest =>
    match reSearch p false line with
    | none => tryPatterns documentYear currentYear text filename card line rest
    | some r =>
      let caps := r.2.2
      let date_str := getCap 1 caps
      let description := pyStrip (getCap 2 caps)
      let amount_str := getCap 3 caps
      if description.length < 3 ∨
          headerWords.any (fun h => containsSub h (pyUpper description)) then
        tryPatterns documentYear currentYear text filename card line rest
      else
        let amount := (parse_amount amount_str).1
        let initial_type := (parse_amount amount_str).2
        if pfLe amount pf0 then
          tryPatterns documentYear currentYear text filename card line rest
        else
          let parsed_date := parse_brazilian_date documentYear currentYear date_str
          let transaction_type := determine_transaction_type description amount initial_type
          let card_number :=
            if truthy card then card.getD [] else extract_card_number text filename
          some { date := parsed_date, description := description, amount := amount,
                 transaction_type := transaction_type, card_number := some card_number,
                 reference := some (strL "Inter-" ++ filename) }

/-- The per-line loop of `InterExtractor.extract_transactions_from_text`,
threading the current card number. -/
def interLoop (documentYear : Option Str) (currentYear : Int)
    (text filename : Str) (card : Option Str) : List Str → List Transaction
  | [] => []
  | line0 :: rest =>
    let line := pyStrip line0
    if line = [] then interLoop documentYear currentYear text filename card rest
    else
      match reSearch cardSectionPat false line with
      | some r =>
        interLoop documentYear currentYear text filename (some (getCap 1 r.2.2)) rest
      | none =>
        let card' :=
          match reMatchAt cardLinePat false line with
          | some (_, caps) => some (getCap 1 caps)
          | none => card
        match tryPatterns documentYear currentYear text filename card' line
            transaction_patterns with
        | some t => t :: interLoop documentYear currentYear text filename card' rest
        | none => interLoop documentYear currentYear text filename card' rest

/-- Method `InterExtractor.extract_transactions_from_text`.  `currentYear` is
`datetime.now().year` (used only by date-parsing fallbacks); `none` models the
run aborting because `extract_document_year` raised (see there). -/
def extract_transactions_from_text (currentYear : Int) (text filename : Str) :
    Option (List Transaction) :=
  match extract_document_year text filename with
  | none => none
  | some documentYear =>
    some (interLoop (some documentYear) currentYear text filename none
      (splitOnChar '\n' text))

end Inter

/-! ## `itau_extractor.py` — `ItauExtractor` -/

namespace Itau

/-- Field `self.categories`. -/
def categories : List Str :=
  [strL "ALIMENTAÇÃO", strL "EDUCAÇÃO", strL "VESTUÁRIO", strL "SAÚDE",
   strL "TURISMO E ENTRETENIM", strL "DIVERSOS", strL "HOBBY", strL "TRANSPORTE"]

/-- Field `self.debit_keywords` (declared by the class; not consulted by
`parse_amount`, which derives the type from the sign alone). -/
def debit_keywords : List Str :=
  [strL "COMPRA", strL "SAQUE", strL "ANUIDADE", strL "JUROS", strL "MULTA",
   strL "IOF", strL "ENCARGO"]

/-- Field `self.credit_keywords` (declared by the class; not consulted by
`parse_amount`). -/
def credit_keywords : List Str :=
  [strL "PAGAMENTO", strL "CREDITO", strL "ESTORNO", strL "DEVOLUÇÃO"]

/-- The separator-cleaning step of `parse_amount` (nested-`if` shape of the
Itaú variant; same Brazilian-format rules). -/
def cleanSeparators (s : Str) : Str :=
  if containsChar ',' s then
    if containsChar '.' s then mapReplace ',' '.' (removeAll '.' s)
    else mapReplace ',' '.' s
  else s

/-- The sign test of the Itaú `parse_amount`: a leading minus on the stripped
token marks a credit (refund). -/
def signIsCredit (s : Str) : Bool := (pyStrip s).head? = some '-'

/-- The cleaned numeric token that `parse_amount` hands to `float(...)`. -/
def cleanedToken (s : Str) : Str :=
  cleanSeparators (if signIsCredit s then pyStrip (removeAll '-' s) else s)

/-- Method `ItauExtractor.parse_amount`. -/
def parse_amount (s : Str) : PyF × TType :=
  let is_credit := signIsCredit s
  match pyFloat? (cleanedToken s) with
  | some amount => (amount, if is_credit then .credit else .debit)
  | none => (pf0, .unknown)

/-- Aggregates extracted from the installments-summary section
(`extract_installments_section`), plus the statement date stored into the
dict by `extract_transactions_from_text`. -/
structure InstInfo where
  installments_found : List (Str × Str × PyF) := []
  next_invoice_total : PyF := pf0
  future_invoices_total : PyF := pf0
  total_future_installments : PyF := pf0
  statement_date : Option Str := none
  deriving DecidableEq, Repr

/-- One candidate position of `re.search(r'\b\d{2}/\d{2}\b', description)`
(PRIORITY 2 of `is_installment_transaction`): two digits, a slash, two
digits starting at index `i`, with a word boundary on each side (`\b`: the
neighbouring character, when it exists, is not a word character — the
digits themselves are word characters). -/
def boundaryBeforeOk (s : Str) (i : Nat) : Bool :=
  match i with
  | 0 => true
  | j + 1 =>
    match s[j]? with
    | some p => !wC p
    | none => true

def boundaryAfterOk (s : Str) (i : Nat) : Bool :=
  match s[i+5]? with
  | some c => !wC c
  | none => true

def ipMatchAt (s : Str) (i : Nat) : Bool :=
  match s[i]?, s[i+1]?, s[i+2]?, s[i+3]?, s[i+4]? with
  | some d1, some d2, some sl, some d3, some d4 =>
    dC d1 && dC d2 && (sl = '/') && dC d3 && dC d4 &&
    boundaryBeforeOk s i && boundaryAfterOk s i
  | _, _, _, _, _ => false

/-- Whether the description contains a word-bounded `NN/NN` token
(`re.search` succeeds iff some starting position matches). -/
def hasInstPattern (description : Str) : Bool :=
  (List.range description.length).any (ipMatchAt description)

/-- Method `ItauExtractor.calculate_billing_period`.  `.ok none` models the
`(None, None)` result of the `(ValueError, IndexError)` handler; `.error ()`
models an `OverflowError` from `timedelta` subtraction below `datetime.min`,
which that handler does not catch. -/
def calculate_billing_period (due_date : Str) : Except Unit (Option (Int × Int)) :=
  match splitOnChar '/' due_date with
  | [d, m, y] =>
    match pyInt? y, pyInt? m, pyInt? d with
    | some yv, some mv, some dv =>
      match mkDate? yv mv dv with
      | some dt =>
        match psubDays 30 dt with
        | some billing => .ok (some (billing.month, billing.year))
        | none => .error ()
      | none => .ok none
    | _, _, _ => .ok none
  | _ => .ok none

/-- Method `ItauExtractor.is_installment_transaction`.  PRIORITY 1 of the
source only logs and has no effect on the result, so it is not modelled.
`.error ()` propagates an `OverflowError` of the 30-day subtraction (the
local handler catches only `ValueError`/`IndexError`). -/
def is_installment_transaction (description : Str) (date_str statement_date : Option Str)
    (installments_info : Option InstInfo) : Except Unit Bool :=
  if description = [] then .ok false
  else if hasInstPattern description then .ok true
  else if truthy date_str ∧ truthy statement_date then
    match splitOnChar '/' (date_str.getD []) with
    | [_, tmS] =>
      match pyInt? tmS with
      | some trans_month =>
        match splitOnChar '/' (statement_date.getD []) with
        | [ddS, dmS, dyS] =>
          match pyInt? dmS, pyInt? dyS, pyInt? ddS with
          | some due_month, some due_year, some due_day =>
            match mkDate? due_year due_month due_day with
            | some dueDt =>
              match psubDays 30 dueDt with
              | some billingDt =>
                let billing_month := billingDt.month
                let month_diff : Int :=
                  if billing_month ≥ trans_month then billing_month - trans_month
                  else billing_month + (12 - trans_month)
                let threshold : Int :=
                  match installments_info with
                  | some info =>
                    if pfLt (pfOfNat 5000) info.total_future_installments then 1 else 2
                  | none => 2
                .ok (decide (month_diff ≥ threshold))
              | none => .error ()
            | none => .ok false
          | _, _, _ => .ok false
        | _ => .ok false
      | none => .ok false
    | _ => .ok false
  else .ok false

/-- Method `ItauExtractor.parse_itau_date`.  `documentYear` is the instance
field `self.document_year`, `currentYear` is `datetime.now().year`.  Any
exception inside the `try` block results in the original `date_str`. -/
def parse_itau_date (documentYear : Option Str) (currentYear : Int)
    (date_str : Str) (year : Option Str) (statement_date : Option Str)
    (description : Option Str) (installments_info : Option InstInfo) : Str :=
  if containsChar '/' date_str ∧ (splitOnChar '/' date_str).length = 2 then
    match splitOnChar '/' date_str with
    | [day, month] =>
      match is_installment_transaction (description.getD []) (some date_str)
          statement_date installments_info with
      | .error _ => date_str
      | .ok is_inst =>
        if is_inst ∧ truthy statement_date then
          match splitOnChar '/' (statement_date.getD []) with
          | [due_day, due_month, due_year] =>
            zfill2 due_day ++ '/' :: zfill2 due_month ++ '/' :: due_year
          | _ => date_str
        else
          let yearFallback : Str :=
            if truthy year then
              match pyInt? (year.getD []) with
              | some use_year =>
                zfill2 day ++ '/' :: zfill2 month ++ '/' :: intToStr use_year
              | none => date_str
            else
              match (if truthy documentYear then pyInt? (documentYear.getD [])
                     else some currentYear) with
              | some use_year =>
                zfill2 day ++ '/' :: zfill2 month ++ '/' :: intToStr use_year
              | none => date_str
          if truthy statement_date ∧ containsChar '/' (statement_date.getD []) then
            match calculate_billing_period (statement_date.getD []) with
            | .error _ => date_str
            | .ok (some (_, billing_year)) =>
              if billing_year ≠ 0 then
                zfill2 day ++ '/' :: zfill2 month ++ '/' :: intToStr billing_year
              else yearFallback
            | .ok none => yearFallback
          else yearFallback
    | _ => date_str
  else date_str

end Itau

namespace Itau

/-! ### `extract_year_from_text` -/

/-- Pattern `_(\d{2})\.pdf$` over the filename. -/
def fnYearSuffixPat : RE :=
  seqList [chr '_', .grp 1 (repN 2 dC), chr '.', litCS "pdf"]

/-- Pattern `(20[2-3]\d)`. -/
def yearPat : RE :=
  .grp 1 (seqList [chr '2', chr '0', .cls (fun c => c = '2' || c = '3'), .cls dC])

/-- Pattern `(\d{4})`. -/
def fourDigitPat : RE := .grp 1 (repN 4 dC)

/-- Fixed-width negative lookbehind `(?<!LIT\s)` (IGNORECASE), checked against
the reversed prefix before the match position: blocked iff the character just
before is whitespace and the `LIT` characters precede it. -/
def lbBlocked (litRevLower : Str) (prevRev : Str) : Bool :=
  match prevRev with
  | [] => false
  | w :: rest =>
    pyIsSpace w && (rest.take litRevLower.length).map pyLowerChar = litRevLower

/-- Scanner for `re.findall(r'(?<!LIT\s)\d{2}/\d{2}/(\d{4})', text, re.IGNORECASE)`:
collects the year groups of all non-overlapping matches whose lookbehind is
not blocked.  `prevRev` is the reversed text before the current position. -/
def yearScanAux (litRevLower : Str) (prevRev : Str) : Str → List Str
  | d1 :: d2 :: '/' :: m1 :: m2 :: '/' :: y1 :: y2 :: y3 :: y4 :: rest =>
    if dC d1 && dC d2 && dC m1 && dC m2 && dC y1 && dC y2 && dC y3 && dC y4 then
      if lbBlocked litRevLower prevRev then
        yearScanAux litRevLower (d1 :: prevRev)
          (d2 :: '/' :: m1 :: m2 :: '/' :: y1 :: y2 :: y3 :: y4 :: rest)
      else
        [y1, y2, y3, y4] ::
          yearScanAux litRevLower
            (y4 :: y3 :: y2 :: y1 :: '/' :: m2 :: m1 :: '/' :: d2 :: d1 :: prevRev) rest
    else
      yearScanAux litRevLower (d1 :: prevRev)
        (d2 :: '/' :: m1 :: m2 :: '/' :: y1 :: y2 :: y3 :: y4 :: rest)
  | c :: rest => yearScanAux litRevLower (c :: prevRev) rest
  | [] => []

def yearScan (lit : Str) (text : Str) : List Str :=
  yearScanAux ((lit.map pyLowerChar).reverse) [] text

def validYear (y : Str) : Bool := 2020 ≤ digitVal y && digitVal y ≤ 2030

/-- Header pattern `Vencimento:\s*\d{2}/\d{2}/(\d{4})` (IGNORECASE). -/
def headerVencPat : RE :=
  seqList [litCI "Vencimento:", .star wsC, repN 2 dC, chr '/', repN 2 dC, chr '/',
           .grp 1 (repN 4 dC)]

/-- Header pattern `Emissão:\s*\d{2}/\d{2}/(\d{4})` (IGNORECASE). -/
def headerEmisPat : RE :=
  seqList [litCI "Emissão:", .star wsC, repN 2 dC, chr '/', repN 2 dC, chr '/',
           .grp 1 (repN 4 dC)]

/-- Header pattern `Data\s+de\s+vencimento:\s*\d{2}/\d{2}/(\d{4})` (IGNORECASE). -/
def headerDataVencPat : RE :=
  seqList [litCI "Data", plusG wsC, litCI "de", plusG wsC, litCI "vencimento:",
           .star wsC, repN 2 dC, chr '/', repN 2 dC, chr '/', .grp 1 (repN 4 dC)]

/-- PRIORITY 3 of `extract_year_from_text`: first header pattern with any
match contributes its (filtered) years, then the loop breaks. -/
def firstHeaderYears : List RE → Str → List Str
  | [], _ => []
  | p :: rest, text =>
    match reFindAll p text with
    | [] => firstHeaderYears rest text
    | ms => ms.filter validYear

/-- Keep first occurrences (models `list(set(...))` adequately: the result is
only used for its length, its minimum and its unique element). -/
def uniqueFirst : List Str → List Str
  | [] => []
  | y :: rest =>
    if rest.contains y then uniqueFirst rest else y :: uniqueFirst rest

/-- Method `ItauExtractor.extract_year_from_text`.  Total: every branch
returns a year string (ultimate fallback `currentYear - 1`). -/
def extract_year_from_text (currentYear : Int) (text filename : Str) : Str :=
  match reSearch fnYearSuffixPat true filename with
  | some r =>
    let ys := getCap 1 r.2.2
    if 20 ≤ digitVal ys ∧ digitVal ys ≤ 30 then strL "20" ++ ys
    else afterFilenameSuffix currentYear text filename
  | none => afterFilenameSuffix currentYear text filename
where
  afterFilenameSuffix (currentYear : Int) (text filename : Str) : Str :=
    match reSearch yearPat false filename with
    | some r => getCap 1 r.2.2
    | none =>
      let years_found :=
        (yearScan (strL "Vencimento:") text).filter validYear ++
        (yearScan (strL "Emissão:") text).filter validYear ++
        (yearScan (strL "Postagem:") text).filter validYear
      let years_found :=
        if years_found = [] then
          firstHeaderYears [headerVencPat, headerEmisPat, headerDataVencPat] text
        else years_found
      if years_found ≠ [] then
        let unique_years := uniqueFirst years_found
        if 1 < unique_years.length then
          intToStr (minIntOf (unique_years.map (fun y => (digitVal y : Int))))
        else unique_years.headD []
      else intToStr (currentYear - 1)

/-! ### `extract_statement_date` -/

/-- Date shape `\d{2}/\d{2}/\d{4}` as group 1. -/
def dateGrp : RE :=
  .grp 1 (seqList [repN 2 dC, chr '/', repN 2 dC, chr '/', repN 4 dC])

/-- Pattern `Com\s+vencimento\s+em:\s*(\d{2}/\d{2}/\d{4})` (IGNORECASE). -/
def sdPat1 : RE :=
  seqList [litCI "Com", plusG wsC, litCI "vencimento", plusG wsC, litCI "em:",
           .star wsC, dateGrp]

/-- Pattern `Vencimento:\s*(\d{2}/\d{2}/\d{4})` (IGNORECASE). -/
def sdPat2 : RE := seqList [litCI "Vencimento:", .star wsC, dateGrp]

/-- Pattern `Data\s+de\s+vencimento:\s*(\d{2}/\d{2}/\d{4})` (IGNORECASE). -/
def sdPat3 : RE :=
  seqList [litCI "Data", plusG wsC, litCI "de", plusG wsC, litCI "vencimento:",
           .star wsC, dateGrp]

/-- Pattern `Emissão:\s*(\d{2}/\d{2}/\d{4})` (IGNORECASE). -/
def sdPat4 : RE := seqList [litCI "Emissão:", .star wsC, dateGrp]

/-- Pattern `(\d{2}/\d{2}/\d{4})\s+Flexível` (IGNORECASE). -/
def sdPat5 : RE := seqList [dateGrp, plusG wsC, litCI "Flexível"]

def firstSearchCap1 : List RE → Str → Option Str
  | [], _ => none
  | p :: rest, s =>
    match reSearch p false s with
    | some r => some (getCap 1 r.2.2)
    | none => firstSearchCap1 rest s

/-- Method `ItauExtractor.extract_statement_date`. -/
def extract_statement_date (text : Str) : Option Str :=
  firstSearchCap1 [sdPat1, sdPat2, sdPat3, sdPat4, sdPat5] text

/-! ### `extract_card_number` -/

/-- Card shape `\d{4}\.XXXX\.XXXX\.\d{4}` (IGNORECASE on the X letters). -/
def cardFmt : RE :=
  seqList [repN 4 dC, chr '.', litCI "XXXX", chr '.', litCI "XXXX", chr '.',
           repN 4 dC]

/-- Pattern `Cartão\s+(\d{4}\.XXXX\.XXXX\.\d{4})` (IGNORECASE). -/
def cardSectionPat : RE := seqList [litCI "Cartão", plusG wsC, .grp 1 cardFmt]

/-- Pattern `(\d{4}\.XXXX\.XXXX\.\d{4})` (IGNORECASE). -/
def cardBarePat : RE := .grp 1 cardFmt

/-- Pattern `final\s+(\d{4})` (IGNORECASE). -/
def cardFinalPat : RE := seqList [litCI "final", plusG wsC, .grp 1 (repN 4 dC)]

/-- Method `ItauExtractor.extract_card_number`. -/
def extract_card_number (text filename : Str) : Str :=
  match firstSearchCap1 [cardSectionPat, cardBarePat, cardFinalPat] text with
  | some g => strL "Itau-" ++ g
  | none =>
    match reSearch fourDigitPat false filename with
    | some r => strL "Itau-" ++ getCap 1 r.2.2
    | none => strL "Itau-Default"

/-! ### `clean_description` -/

/-- Class `[A-Z\s]` (case-sensitive). -/
def upperWsC (c : Char) : Bool := ('A' ≤ c && c ≤ 'Z') || pyIsSpace c

/-- Method `ItauExtractor.clean_description`. -/
def clean_description (description : Str) : Str :=
  let d := pyStrip (reSubAll (plusG wsC) false [' '] description)
  let d := categories.foldl
    (fun d cat =>
      if (strL " " ++ cat).isSuffixOf d then
        pyStrip (d.take (d.length - (strL " " ++ cat).length))
      else d) d
  let d := pyStrip (reSubAll (.seq (chr '.') (plusG upperWsC)) true [] d)
  let d := pyStrip (reSubAll (seqList [chr '-', chr 'C', chr 'T', plusG wsC, plusG wC])
    false [] d)
  pyStrip (reSubAll (seqList [plusG wsC, repN 2 dC, chr '/', repN 2 dC]) true [] d)

end Itau

/-- Python `str.replace(needle, repl)` for a multi-character needle: replace
all non-overlapping occurrences, scanning left to right. -/
def replaceSubAux (needle repl : Str) : Nat → Str → Str
  | 0, s => s
  | _, [] => []
  | fuel + 1, s@(c :: rest) =>
    if needle ≠ [] ∧ needle.isPrefixOf s then
      repl ++ replaceSubAux needle repl fuel (s.drop needle.length)
    else c :: replaceSubAux needle repl fuel rest

def replaceSub (needle repl s : Str) : Str := replaceSubAux needle repl s.length s

namespace Itau

/-! ### `extract_installments_section` -/

/-- Pattern `\d{2}/\d{2}.*\d+,\d{2}.*Comprasparceladas` (case-sensitive,
searched). -/
def instIndicatorPat : RE :=
  seqList [repN 2 dC, chr '/', repN 2 dC, .star dotC, plusG dC, chr ',',
           repN 2 dC, .star dotC, litCS "Comprasparceladas"]

/-- Pattern `(\d{2}/\d{2})\s+(.+?)\s+([\d.,]+)` (case-sensitive, anchored
`re.match`, no end anchor). -/
def instEntryPat : RE :=
  seqList [.grp 1 (seqList [repN 2 dC, chr '/', repN 2 dC]), plusG wsC,
           .grp 2 (plusL dotC), plusG wsC, .grp 3 (plusG amtC)]

/-- Bare amount search `([\d.,]+)`. -/
def amountSearchPat : RE := .grp 1 (plusG amtC)

/-- Amount conversion used throughout the installments section:
`float(s.replace('.', '').replace(',', '.'))`. -/
def instAmount? (s : Str) : Option PyF := pyFloat? (mapReplace ',' '.' (removeAll '.' s))

/-- The line loop of `extract_installments_section`; the
`Totalparapróximasfaturas` line ends the scan (`break`). -/
def instSectionLoop (inSec : Bool) (acc : InstInfo) : List Str → InstInfo
  | [] => acc
  | line0 :: rest =>
    let line := pyStrip line0
    if containsSub (strL "Comprasparceladas-próximasfaturas") line then
      instSectionLoop true acc rest
    else if inSec then
      if containsSub (strL "Próximafatura") line then
        match reSearch amountSearchPat false line with
        | some r =>
          match instAmount? (getCap 1 r.2.2) with
          | some amount => instSectionLoop true { acc with next_invoice_total := amount } rest
          | none => instSectionLoop true acc rest
        | none => instSectionLoop true acc rest
      else if containsSub (strL "Demaisfaturas") line then
        match reSearch amountSearchPat false line with
        | some r =>
          match instAmount? (getCap 1 r.2.2) with
          | some amount => instSectionLoop true { acc with future_invoices_total := amount } rest
          | none => instSectionLoop true acc rest
        | none => instSectionLoop true acc rest
      else if containsSub (strL "Totalparapróximasfaturas") line then
        match reSearch amountSearchPat false line with
        | some r =>
          match instAmount? (getCap 1 r.2.2) with
          | some amount => { acc with total_future_installments := amount }
          | none => acc
        | none => acc
      else if (reSearch instIndicatorPat false line).isSome then
        match reMatchAt instEntryPat false line with
        | some (_, caps) =>
          let date := getCap 1 caps
          let description :=
            pyStrip (replaceSub (strL "Comprasparceladas-próximasfaturas") [] (getCap 2 caps))
          match instAmount? (getCap 3 caps) with
          | some amount =>
            instSectionLoop true
              { acc with installments_found := acc.installments_found ++ [(date, description, amount)] }
              rest
          | none => instSectionLoop true acc rest
        | none => instSectionLoop true acc rest
      else instSectionLoop true acc rest
    else instSectionLoop false acc rest

/-- Method `ItauExtractor.extract_installments_section`. -/
def extract_installments_section (text : Str) : InstInfo :=
  instSectionLoop false {} (splitOnChar '\n' text)

/-! ### `extract_transactions_from_text` -/

/-- Pattern `Lançamentos.*final\s+(\d{4})` (IGNORECASE). -/
def lancFinalPat : RE :=
  seqList [litCI "Lançamentos", .star dotC, litCI "final", plusG wsC,
           .grp 1 (repN 4 dC)]

/-- Class `[A-Z\s]` under IGNORECASE: ASCII letters or whitespace. -/
def letterWsC (c : Char) : Bool :=
  ('A' ≤ c && c ≤ 'Z') || ('a' ≤ c && c ≤ 'z') || pyIsSpace c

/-- Pattern `([A-Z\s]+)\(final\s+(\d{4})\)` (IGNORECASE). -/
def personCardPat : RE :=
  seqList [.grp 1 (plusG letterWsC), chr '(', litCI "final", plusG wsC,
           .grp 2 (repN 4 dC), chr ')']

def sectionEnders : List Str :=
  [strL "Limites de crédito", strL "Encargos cobrados", strL "Resumo da fatura"]

def skipWords : List Str :=
  [strL "FINAL", strL "CARTÃO", strL "TOTAL", strL "SALDO"]

/-- Pattern `(\d{2}/\d{2})\s+(.+?)\s+([\d.,]+)$` (anchored `re.match` with
end anchor). -/
def txFullLinePat : RE :=
  seqList [.grp 1 (seqList [repN 2 dC, chr '/', repN 2 dC]), plusG wsC,
           .grp 2 (plusL dotC), plusG wsC, .grp 3 (plusG amtC)]

/-- Pattern `(\d{2}/\d{2})\s+(.+)$` (anchored `re.match` with end anchor). -/
def txStartLinePat : RE :=
  seqList [.grp 1 (seqList [repN 2 dC, chr '/', repN 2 dC]), plusG wsC,
           .grp 2 (plusG dotC)]

/-- Pattern `^([\d.,]+)$`. -/
def amountOnlyPat : RE := .grp 1 (plusG amtC)

/-- Pattern `^\d{2}/\d{2}`. -/
def ddmmPrefixPat : RE := seqList [repN 2 dC, chr '/', repN 2 dC]

/-- Pattern `([\d.,]+)$` (searched with end anchor). -/
def amountEndPat : RE := .grp 1 (plusG amtC)

/-- Per-document context of the extraction loop: `datetime.now().year`,
`self.document_year`, the statement due date, the installments info, and the
full text/filename (used by the card-number fallback). -/
structure Ctx where
  currentYear : Int
  documentYear : Str
  statement_date : Option Str
  installments_info : InstInfo
  text : Str
  filename : Str

/-- One transaction-creation site: parse the date with the document context
and append the record only when `amount > 0`. -/
def emitTx (ctx : Ctx) (card : Option Str) (date_str description : Str)
    (amount : PyF) (transaction_type : TType) : List Transaction :=
  if pfLt pf0 amount then
    [{ date := parse_itau_date (some ctx.documentYear) ctx.currentYear date_str none
         ctx.statement_date (some description) (some ctx.installments_info),
       description := description, amount := amount,
       transaction_type := transaction_type,
       card_number := some (if truthy card then card.getD []
                            else extract_card_number ctx.text ctx.filename),
       reference := some (strL "Itau-" ++ ctx.filename) }]
  else []

/-- One iteration of the `while i < len(lines)` loop of
`ItauExtractor.extract_transactions_from_text`: given the current line and a
lookahead at the next one, returns the transactions appended, the updated
card/section state, and whether the next line was consumed (`i += 1` inside
the body). -/
def itauStep (ctx : Ctx) (card : Option Str) (inSec : Bool) (line0 : Str)
    (next : Option Str) : List Transaction × Option Str × Bool × Bool :=
  let line := pyStrip line0
  if line = [] then ([], card, inSec, false)
  else
    match reSearch cardSectionPat false line with
    | some r => ([], some (strL "Itau-" ++ getCap 1 r.2.2), inSec, false)
    | none =>
    match reSearch lancFinalPat false line with
    | some r => ([], some (strL "Itau-XXXX.XXXX.XXXX." ++ getCap 1 r.2.2), inSec, false)
    | none =>
    match reSearch personCardPat false line with
    | some r => ([], some (strL "Itau-XXXX.XXXX.XXXX." ++ getCap 2 r.2.2), inSec, false)
    | none =>
    if containsSub (strL "Lançamentos:") line ∨
        containsSub (strL "DATA ESTABELECIMENTO VALOR") line then
      ([], card, true, false)
    else if sectionEnders.any (fun m => containsSub m line) then
      ([], card, false, false)
    else if inSec then
      match reMatchAt txFullLinePat true line with
      | some (_, caps) =>
        let description := clean_description (getCap 2 caps)
        if description.length < 3 ∨
            skipWords.any (fun w => containsSub w (pyUpper description)) then
          ([], card, inSec, false)
        else
          (emitTx ctx card (getCap 1 caps) description
             (parse_amount (getCap 3 caps)).1 (parse_amount (getCap 3 caps)).2,
           card, inSec, false)
      | none =>
      match reMatchAt txStartLinePat true line with
      | some (_, caps2) =>
        match next with
        | none => ([], card, inSec, false)
        | some next0 =>
          let next_line := pyStrip next0
          match reMatchAt amountOnlyPat true next_line with
          | some (_, capsA) =>
            let description := clean_description (getCap 2 caps2)
            ((if 3 ≤ description.length then
                emitTx ctx card (getCap 1 caps2) description
                  (parse_amount (getCap 1 capsA)).1 (parse_amount (getCap 1 capsA)).2
              else []),
             card, inSec, true)
          | none =>
            if ¬(reMatchAt ddmmPrefixPat false next_line).isSome ∧ next_line ≠ [] then
              let continued := getCap 2 caps2 ++ ' ' :: next_line
              match reSearch amountEndPat true continued with
              | some (start, _, capsC) =>
                let description := clean_description (pyStrip (continued.take start))
                ((if 3 ≤ description.length then
                    emitTx ctx card (getCap 1 caps2) description
                      (parse_amount (getCap 1 capsC)).1 (parse_amount (getCap 1 capsC)).2
                  else []),
                 card, inSec, true)
              | none => ([], card, inSec, false)
            else ([], card, inSec, false)
      | none => ([], card, inSec, false)
    else ([], card, inSec, false)

/-- The line loop, driven by `itauStep`. -/
def itauLoop (ctx : Ctx) (card : Option Str) (inSec : Bool) :
    List Str → List Transaction
  | [] => []
  | line0 :: rest =>
    match itauStep ctx card inSec line0 rest.head? with
    | (txs, card2, inSec2, skip) =>
      txs ++ (if skip then
                match rest with
                | [] => []
                | _ :: rest2 => itauLoop ctx card2 inSec2 rest2
              else itauLoop ctx card2 inSec2 rest)

/-- Method `ItauExtractor.extract_transactions_from_text`.  Document-wide
facts are derived first; the billing-period calculation at document level
(line 447 of the source) is outside any handler, so its `OverflowError`
aborts the run (`none`).  The closing `validate_installment_detection` call
only logs and is not modelled. -/
def extract_transactions_from_text (currentYear : Int) (text filename : Str) :
    Option (List Transaction) :=
  let documentYear := extract_year_from_text currentYear text filename
  let statement_date := extract_statement_date text
  match (match statement_date with
         | some sd => calculate_billing_period sd
         | none => .ok none) with
  | .error _ => none
  | .ok _ =>
    let info0 := extract_installments_section text
    let installments_info :=
      match statement_date with
      | some sd => { info0 with statement_date := some sd }
      | none => info0
    some (itauLoop
      { currentYear := currentYear, documentYear := documentYear,
        statement_date := statement_date, installments_info := installments_info,
        text := text, filename := filename }
      none false (splitOnChar '\n' text))

end Itau

/-! ## `BankOmieApp.py` — `BankStatementExtractor` -/

namespace App

/-- Method `BankStatementExtractor.normalize_description_for_deduplication`. -/
def normalize_description_for_deduplication (description : Str) : Str :=
  let n := pyUpper (pyStrip description)
  let n := reSubAll (seqList [plusG wsC, repN 2 dC, chr '/', repN 2 dC]) true [] n
  let n := reSubAll (seqList [plusG wsC, repN 2 dC, chr '/', repN 2 dC, plusG wsC])
    false [' '] n
  let n := reSubAll (.seq (plusG wsC) (plusG amtC)) true [] n
  let n := pyStrip (reSubAll (plusG wsC) false [' '] n)
  let n := reSubAll (seqList [chr '-', chr 'C', chr 'T', .star wC]) true [] n
  let n := reSubAll (seqList [plusG wsC, chr 'C', chr 'T', .star wC]) true [] n
  pyStrip n

/-- The dedup key `(day, month, normalized_description, amount)`; `none` when
the transaction's date does not split into exactly three parts (such a
transaction is never entered into any group). -/
abbrev DedupKey := Str × Str × Str × PyF

def dedupKey? (t : Transaction) : Option DedupKey :=
  match splitOnChar '/' t.date with
  | [day, month, _] =>
    some (day, month, normalize_description_for_deduplication t.description, t.amount)
  | _ => none

/-- Insertion-ordered grouping (`defaultdict(list)` keyed by the tuple). -/
def addToGroups : List (DedupKey × List Transaction) → DedupKey → Transaction →
    List (DedupKey × List Transaction)
  | [], k, t => [(k, [t])]
  | (k', g) :: rest, k, t =>
    if k' = k then (k', g ++ [t]) :: rest else (k', g) :: addToGroups rest k t

def buildGroups (transactions : List Transaction) : List (DedupKey × List Transaction) :=
  transactions.foldl
    (fun gs t =>
      match dedupKey? t with
      | some k => addToGroups gs k t
      | none => gs)
    []

/-- The `valid_transactions` list: members whose year field parses and lies in
`2020 ≤ year ≤ current_year` (a bare `except` skips any failure). -/
def validCandidates (currentYear : Int) (group : List Transaction) :
    List (Int × Transaction) :=
  group.filterMap
    (fun t =>
      match (splitOnChar '/' t.date)[2]? with
      | some ys =>
        match pyInt? ys with
        | some y => if 2020 ≤ y ∧ y ≤ currentYear then some (y, t) else none
        | none => none
      | none => none)

/-- Stable insertion keeping earlier elements with equal years first. -/
def insertByYear (p : Int × Transaction) : List (Int × Transaction) →
    List (Int × Transaction)
  | [] => [p]
  | q :: rest => if q.1 ≤ p.1 then q :: insertByYear p rest else p :: q :: rest

/-- Python's stable `list.sort(key=lambda x: x[0])`. -/
def sortPairsByYear (l : List (Int × Transaction)) : List (Int × Transaction) :=
  l.foldl (fun acc p => insertByYear p acc) []

/-- The representative chosen from one dedup group (the body of the
`for key, group in groups.items()` loop).  `none` models the uncaught
`ValueError` of `int(month)` (resp. `int(day)` in the log line): either
aborts the whole `deduplicate_transactions` call. -/
def chooseRep (currentYear : Int) (day month : Str) (group : List Transaction) :
    Option Transaction :=
  match group with
  | [] => none
  | [t] => some t
  | g0 :: _ :: _ =>
    match validCandidates currentYear group with
    | [] => some g0
    | valid =>
      match pyInt? month, pyInt? day with
      | some transaction_month, some _ =>
        let sorted := sortPairsByYear valid
        let years := sorted.map (fun p => p.1)
        if years.contains 2024 ∧ years.contains 2025 then
          if 9 ≤ transaction_month then
            match sorted.find? (fun p => p.1 = 2024) with
            | some p => some p.2
            | none => none
          else
            match sorted with
            | p :: _ => some p.2
            | [] => none
        else
          match sorted with
          | p :: _ => some p.2
          | [] => none
      | _, _ => none

def mapMOpt (f : α → Option β) : List α → Option (List β)
  | [] => some []
  | a :: l =>
    match f a with
    | some b =>
      match mapMOpt f l with
      | some bs => some (b :: bs)
      | none => none
    | none => none

/-- Method `BankStatementExtractor.deduplicate_transactions`.  `currentYear`
is `datetime.now().year`.  A `none` result models the method raising (see
`chooseRep`); transactions whose date does not split into three parts never
enter a group and so never reach the output. -/
def deduplicate_transactions (currentYear : Int) (transactions : List Transaction) :
    Option (List Transaction) :=
  mapMOpt (fun e => chooseRep currentYear e.1.1 e.1.2.1 e.2)
    (buildGroups transactions)

/-- Method `BankStatementExtractor.process_single_file`, with the Text Source
collaborator folded in: a document is a `(filename, text)` pair and
`extract` is the configured extractor's `extract_transactions_from_text`
(dynamic dispatch on the bank type).  Empty extracted text yields `[]`. -/
def process_single_file (extract : Str → Str → Option (List Transaction))
    (doc : Str × Str) : Option (List Transaction) :=
  if pyStrip doc.2 = [] then some [] else extract doc.2 doc.1

/-- Method `BankStatementExtractor.process_all_files`: extend
`self.transactions` with each file's extraction result, in order.  No
deduplication step is applied (the source disables it with an explanatory
comment).  An extractor exception aborts the run (`none`). -/
def process_all_files (extract : Str → Str → Option (List Transaction))
    (files : List (Str × Str)) : Option (List Transaction) :=
  files.foldl
    (fun acc f =>
      match acc with
      | none => none
      | some ts =>
        match process_single_file extract f with
        | some fts => some (ts ++ fts)
        | none => none)
    (some [])

end App

/-! ## Helper lemmas -/

theorem splitOnChar_ne_nil (c : Char) : ∀ s : Str, splitOnChar c s ≠ []
  | [] => by simp [splitOnChar]
  | c0 :: rest => by
    simp only [splitOnChar]
    split
    · simp
    · cases h : splitOnChar c rest with
      | nil => simp
      | cons t ts => simp

theorem splitOnChar_two_le_contains {c : Char} :
    ∀ {s : Str}, 2 ≤ (splitOnChar c s).length → containsChar c s = true
  | [], h => by simp [splitOnChar] at h
  | c0 :: rest, h => by
    simp only [splitOnChar] at h
    by_cases hc : c0 = c
    · simp [containsChar, hc]
    · simp only [if_neg hc] at h
      cases hsp : splitOnChar c rest with
      | nil => exact absurd hsp (splitOnChar_ne_nil c rest)
      | cons t ts =>
        rw [hsp] at h
        simp only [List.length_cons] at h
        have : 2 ≤ (splitOnChar c rest).length := by
          rw [hsp]
          simp only [List.length_cons]
          omega
        have hct := splitOnChar_two_le_contains this
        simp [containsChar] at hct ⊢
        tauto

theorem splitOnChar_pair_contains {c : Char} {s d m : Str}
    (h : splitOnChar c s = [d, m]) : containsChar c s = true :=
  splitOnChar_two_le_contains (by rw [h]; simp)

theorem splitOnChar_pair_ne_nil {c : Char} {s d m : Str}
    (h : splitOnChar c s = [d, m]) : s ≠ [] := by
  intro hs
  rw [hs] at h
  simp [splitOnChar] at h

theorem splitOnChar_triple_ne_nil {c : Char} {s a b d : Str}
    (h : splitOnChar c s = [a, b, d]) : s ≠ [] := by
  intro hs
  rw [hs] at h
  simp [splitOnChar] at h

theorem pfLe_false_lt {a b : PyF} (h : pfLe a b = false) : pfLt b a = true := by
  simp only [pfLe, decide_eq_false_iff_not, not_le] at h
  simp only [pfLt, decide_eq_true_eq]
  omega

/-! ## Claim C1 -/

/-- Transaction produced by the Inter extractor for the duplicated line of the
C1 run. -/
def c1Tx : Transaction :=
  { date := strL "03/10/2024", description := strL "LOJA ACME", amount := ⟨100, 0⟩,
    transaction_type := .credit, card_number := some (strL "20252024960001"),
    reference := some (strL "Inter-2024_list.pdf") }

/-- Two statements reporting the identical transaction (a document whose text
repeats the same transaction line). -/
def c1Files : List (Str × Str) :=
  [(strL "2024_list.pdf",
    strL "03 de out. 2024 LOJA ACME - R$ 100,00\n03 de out. 2024 LOJA ACME - R$ 100,00")]

/-- C1, counterexample: on this one-document run the pipeline output is the
raw concatenation `[c1Tx, c1Tx]`, while the Deduplicator applied to the
extracted list merges the two records into one; hence the pipeline output is
not the Deduplicator's output. -/
theorem c1_pipeline_output_not_deduplicated :
    App.process_all_files (Inter.extract_transactions_from_text 2025) c1Files
      = some [c1Tx, c1Tx]
    ∧ App.deduplicate_transactions 2025 [c1Tx, c1Tx] = some [c1Tx]
    ∧ some [c1Tx, c1Tx] ≠ some [c1Tx] := by decide

theorem processAllFilesAux (extract : Str → Str → Option (List Transaction)) :
    ∀ (files : List (Str × Str)) (acc : List Transaction),
      files.foldl
        (fun acc f =>
          match acc with
          | none => none
          | some ts =>
            match App.process_single_file extract f with
            | some fts => some (ts ++ fts)
            | none => none)
        (some acc)
      = (App.mapMOpt (App.process_single_file extract) files).map
          (fun ls => acc ++ ls.flatten) := by
  intro files
  induction files with
  | nil => intro acc; simp [App.mapMOpt]
  | cons f fs ih =>
    intro acc
    simp only [List.foldl_cons, App.mapMOpt]
    cases hf : App.process_single_file extract f with
    | none =>
      simp only [hf]
      have : ∀ (l : List (Str × Str)),
          l.foldl
            (fun acc f =>
              match acc with
              | none => none
              | some ts =>
                match App.process_single_file extract f with
                | some fts => some (ts ++ fts)
                | none => none)
            none = none := by
        intro l
        induction l with
        | nil => rfl
        | cons x xs ihx => simpa using ihx
      simp [this]
    | some fts =>
      simp only [hf, ih (acc ++ fts)]
      cases App.mapMOpt (App.process_single_file extract) fs with
      | none => simp
      | some ls => simp [List.flatten]

/-- C1, amended: `process_all_files` returns the plain concatenation of the
per-document extraction results; `deduplicate_transactions` is not applied
anywhere in the run (the source disables deduplication). -/
theorem c1_process_all_files_is_concatenation
    (extract : Str → Str → Option (List Transaction)) (files : List (Str × Str)) :
    App.process_all_files extract files =
      (App.mapMOpt (App.process_single_file extract) files).map (fun ls => ls.flatten) := by
  have h := processAllFilesAux extract files []
  simpa [App.process_all_files] using h

/-! ## Claim C2 -/

theorem is_installment_no_stmt (desc : Str) (ds : Option Str)
    (info : Option Itau.InstInfo) :
    Itau.is_installment_transaction desc ds none info =
      .ok (decide (desc ≠ []) && Itau.hasInstPattern desc) := by
  by_cases h1 : desc = []
  · simp [Itau.is_installment_transaction, h1]
  · by_cases h2 : Itau.hasInstPattern desc
    · simp [Itau.is_installment_transaction, h1, h2]
    · simp [Itau.is_installment_transaction, h1, h2, truthy]

/-- C2, counterexample: with the partial date `26/12`, the explicit caller
year `2023` and the statement due date `17/02/2025`, the Date Normalizer
returns the billing-period year (`26/12/2025`), not the caller-supplied year
(`26/12/2023`): the billing-period rule has priority over the explicit
year. -/
theorem c2_billing_period_overrides_explicit_year :
    Itau.parse_itau_date none 2025 (strL "26/12") (some (strL "2023"))
        (some (strL "17/02/2025")) (some (strL "COMPRA LOJA")) none
      = strL "26/12/2025"
    ∧ Itau.parse_itau_date none 2025 (strL "26/12") (some (strL "2023"))
        (some (strL "17/02/2025")) (some (strL "COMPRA LOJA")) none
      ≠ strL "26/12/2023" := by decide

/-- C2, amended: the caller-supplied year is decisive only when no statement
due date is available (and hence no billing-period calculation and no
due-date rewrite can apply): then the result is exactly the zero-padded
`day/month` with the integer value of the supplied year. -/
theorem c2_explicit_year_used_without_due_date
    (docYear : Option Str) (currentYear : Int) (ds d m y : Str) (n : Int)
    (desc : Option Str) (info : Option Itau.InstInfo)
    (hsplit : splitOnChar '/' ds = [d, m])
    (hy : y ≠ []) (hn : pyInt? y = some n) :
    Itau.parse_itau_date docYear currentYear ds (some y) none desc info =
      zfill2 d ++ '/' :: zfill2 m ++ '/' :: intToStr n := by
  have hc : containsChar '/' ds = true := splitOnChar_pair_contains hsplit
  simp [Itau.parse_itau_date, hc, hsplit, is_installment_no_stmt, truthy, hy, hn]

/-- C2 witness. -/
theorem c2_explicit_year_used_without_due_date_witness :
    Itau.parse_itau_date none 2025 (strL "26/12") (some (strL "2023")) none none none =
      zfill2 (strL "26") ++ '/' :: zfill2 (strL "12") ++ '/' :: intToStr 2023 :=
  c2_explicit_year_used_without_due_date none 2025 (strL "26/12") (strL "26")
    (strL "12") (strL "2023") 2023 none none (by decide) (by decide) (by decide)

/-! ## Claim C3 -/

/-- C3: a transaction classified as an installment in a document with a known
due date resolves to exactly the zero-padded due date, regardless of the
billing period or any year argument. -/
theorem c3_installment_resolves_to_due_date
    (docYear : Option Str) (currentYear : Int) (ds : Str) (year : Option Str)
    (sd dd dm dy : Str) (desc : Option Str) (info : Option Itau.InstInfo) (d m : Str)
    (hds : splitOnChar '/' ds = [d, m])
    (hsd : splitOnChar '/' sd = [dd, dm, dy])
    (hinst : Itau.is_installment_transaction (desc.getD []) (some ds) (some sd) info
      = .ok true) :
    Itau.parse_itau_date docYear currentYear ds year (some sd) desc info =
      zfill2 dd ++ '/' :: zfill2 dm ++ '/' :: dy := by
  have hc := splitOnChar_pair_contains hds
  have hsne := splitOnChar_triple_ne_nil hsd
  simp [Itau.parse_itau_date, hc, hds, hinst, truthy, hsne, hsd]

/-- C3 witness: due date `17/02/2025`, installment-classified transaction
dated `26/11` resolves to `17/02/2025` exactly. -/
theorem c3_installment_resolves_to_due_date_witness :
    Itau.parse_itau_date none 2025 (strL "26/11") none (some (strL "17/02/2025"))
      (some (strL "LOJA 04/21")) none = strL "17/02/2025" :=
  (c3_installment_resolves_to_due_date none 2025 (strL "26/11") none
    (strL "17/02/2025") (strL "17") (strL "02") (strL "2025")
    (some (strL "LOJA 04/21")) none (strL "26") (strL "11")
    (by decide) (by decide) (by decide)).trans (by decide)

/-! ## Claim C4 -/

/-- The wrapped month distance of the month-distance signal, as the
specification states it: difference of billing-period month and transaction
month, wrapping through December. -/
def monthDiffWrap (billing trans : Int) : Int :=
  if billing ≥ trans then billing - trans else billing + (12 - trans)

/-- The signal's threshold: 2, lowered to 1 when the installments-summary
section reports a material (greater than 5000) total of future
installments. -/
def instThreshold (info : Option Itau.InstInfo) : Int :=
  match info with
  | some i => if pfLt (pfOfNat 5000) i.total_future_installments then 1 else 2
  | none => 2

/-- C4: for a transaction whose description triggers no pattern signal, the
classifier fires exactly when the wrapped month distance between the
billing-period month (due date minus 30 days) and the transaction month
reaches the threshold; the wrapped distance is never negative on months, and
a November transaction against a February billing month yields 3. -/
theorem c4_month_distance_signal
    (desc ds sd td tm dd dm dy : Str) (info : Option Itau.InstInfo)
    (tmv dmv dyv ddv : Int) (due billing : Date)
    (hdesc : desc ≠ [])
    (hnopat : Itau.hasInstPattern desc = false)
    (hds : splitOnChar '/' ds = [td, tm])
    (hsd : splitOnChar '/' sd = [dd, dm, dy])
    (htm : pyInt? tm = some tmv)
    (hdm : pyInt? dm = some dmv) (hdy : pyInt? dy = some dyv) (hdd : pyInt? dd = some ddv)
    (hdate : mkDate? dyv dmv ddv = some due)
    (hsub : psubDays 30 due = some billing) :
    Itau.is_installment_transaction desc (some ds) (some sd) info =
      .ok (decide (monthDiffWrap billing.month tmv ≥ instThreshold info))
    ∧ (∀ b t : Int, 1 ≤ b → b ≤ 12 → 1 ≤ t → t ≤ 12 → 0 ≤ monthDiffWrap b t)
    ∧ monthDiffWrap 2 11 = 3 := by
  have hdsne := splitOnChar_pair_ne_nil hds
  have hsdne := splitOnChar_triple_ne_nil hsd
  refine ⟨?_, ?_, by decide⟩
  · simp [Itau.is_installment_transaction, hdesc, hnopat, truthy, hdsne, hsdne,
      hds, hsd, htm, hdm, hdy, hdd, hdate, hsub, monthDiffWrap, instThreshold]
  · intro b t hb1 hb2 ht1 ht2
    simp only [monthDiffWrap]
    split <;> omega

/-- C4 witness: a `20/11` transaction against due date `17/03/2025`
(billing month February) has wrapped distance 3 ≥ 2 and is classified as an
installment. -/
theorem c4_month_distance_signal_witness :
    Itau.is_installment_transaction (strL "COMPRA LOJA") (some (strL "20/11"))
      (some (strL "17/03/2025")) none = .ok true :=
  ((c4_month_distance_signal (strL "COMPRA LOJA") (strL "20/11") (strL "17/03/2025")
    (strL "20") (strL "11") (strL "17") (strL "03") (strL "2025") none
    11 3 2025 17 ⟨2025, 3, 17⟩ ⟨2025, 2, 15⟩
    (by decide) (by decide) (by decide) (by decide) (by decide) (by decide)
    (by decide) (by decide) (by decide) (by decide)).1).trans (by decide)

/-! ## Claim C5 -/

/-- Transaction produced by the good line of the C5 document. -/
def c5Tx : Transaction :=
  { date := strL "03/10/2024", description := strL "LOJA CINCO", amount := ⟨100, 0⟩,
    transaction_type := .credit, card_number := some (strL "20252024960001"),
    reference := some (strL "Inter-2024_list.pdf") }

/-- A document whose first line carries a non-numeric amount token and whose
second line is a valid transaction. -/
def c5Text : Str :=
  strL "03 de out. 2024 LOJA BETA - R$ ,,,\n03 de out. 2024 LOJA CINCO - R$ 100,00"

/-- C5, counterexample: on a non-numeric token `parse_amount` does not fail —
there is no `AmountParseError` anywhere in the code; both variants return
normally with the sentinel `(0.0, 'unknown')`. -/
theorem c5_parse_amount_returns_sentinel :
    Itau.parse_amount (strL ",") = (pf0, .unknown)
    ∧ Inter.parse_amount (strL ",") = (pf0, .unknown) := by decide

/-- C5, amended: when the cleaned token is not numeric, `parse_amount`
returns `(0.0, 'unknown')` instead of raising, and the extraction pipeline's
non-positive-amount guard then emits no transaction for that line while the
rest of the document is still processed. -/
theorem c5_nonnumeric_amount_skipped :
    (∀ s : Str, pyFloat? (Itau.cleanedToken s) = none →
      Itau.parse_amount s = (pf0, .unknown))
    ∧ (∀ s : Str, pyFloat? (Inter.cleanedToken s) = none →
      Inter.parse_amount s = (pf0, .unknown))
    ∧ Inter.extract_transactions_from_text 2025 c5Text (strL "2024_list.pdf")
        = some [c5Tx] := by
  refine ⟨?_, ?_, by decide⟩
  · intro s h
    simp [Itau.parse_amount, h]
  · intro s h
    simp [Inter.parse_amount, h]

/-- C5 witness. -/
theorem c5_nonnumeric_amount_skipped_witness :
    Itau.parse_amount (strL "..") = (pf0, .unknown) :=
  c5_nonnumeric_amount_skipped.1 (strL "..") (by decide)

/-! ## Claim C6 -/

/-- C6, counterexample: the amount token `-50,00` carries an explicit sign,
whose Inter polarity is debit, yet `determine_transaction_type` returns
credit because the description contains the credit keyword `PAGAMENTO` — the
keyword lookup overrides the explicit sign, contradicting the claimed
layering. -/
theorem c6_keyword_overrides_sign :
    Inter.parse_amount (strL "-50,00") = (⟨50, 0⟩, .debit)
    ∧ Inter.determine_transaction_type (strL "PAGAMENTO CONTA") ⟨50, 0⟩ .debit
        = .credit := by decide

/-- C6, amended: polarity resolution is layered in the order the code
implements: the credit keyword set first, then the debit keyword set, then a
negative-amount check, then the sign-derived hint (family default `debit`
when the hint is `unknown`).  In the Itaú family the sign alone decides
inside `parse_amount`: a stripped leading minus never yields debit, and its
absence never yields credit. -/
theorem c6_polarity_layering (desc : Str) (amount : PyF) (t0 : TType) :
    (Inter.credit_keywords.any (fun kw => containsSub kw (pyUpper desc)) = true →
      Inter.determine_transaction_type desc amount t0 = .credit)
    ∧ (Inter.credit_keywords.any (fun kw => containsSub kw (pyUpper desc)) = false →
       Inter.debit_keywords.any (fun kw => containsSub kw (pyUpper desc)) = true →
       Inter.determine_transaction_type desc amount t0 = .debit)
    ∧ (Inter.credit_keywords.any (fun kw => containsSub kw (pyUpper desc)) = false →
       Inter.debit_keywords.any (fun kw => containsSub kw (pyUpper desc)) = false →
       pfLt amount pf0 = true →
       Inter.determine_transaction_type desc amount t0 = .debit)
    ∧ (Inter.credit_keywords.any (fun kw => containsSub kw (pyUpper desc)) = false →
       Inter.debit_keywords.any (fun kw => containsSub kw (pyUpper desc)) = false →
       pfLt amount pf0 = false → t0 ≠ .unknown →
       Inter.determine_transaction_type desc amount t0 = t0)
    ∧ (Inter.credit_keywords.any (fun kw => containsSub kw (pyUpper desc)) = false →
       Inter.debit_keywords.any (fun kw => containsSub kw (pyUpper desc)) = false →
       pfLt amount pf0 = false → t0 = .unknown →
       Inter.determine_transaction_type desc amount t0 = .debit)
    ∧ (∀ s : Str, Itau.signIsCredit s = true → (Itau.parse_amount s).2 ≠ .debit)
    ∧ (∀ s : Str, Itau.signIsCredit s = false → (Itau.parse_amount s).2 ≠ .credit) := by
  refine ⟨?_, ?_, ?_, ?_, ?_, ?_, ?_⟩
  · intro h; simp [Inter.determine_transaction_type, h]
  · intro h1 h2; simp [Inter.determine_transaction_type, h1, h2]
  · intro h1 h2 h3; simp [Inter.determine_transaction_type, h1, h2, h3]
  · intro h1 h2 h3 h4; simp [Inter.determine_transaction_type, h1, h2, h3, h4]
  · intro h1 h2 h3 h4; simp [Inter.determine_transaction_type, h1, h2, h3, h4]
  · intro s h
    simp only [Itau.parse_amount, h]
    cases hp : pyFloat? (Itau.cleanedToken s) <;> simp
  · intro s h
    simp only [Itau.parse_amount, h]
    cases hp : pyFloat? (Itau.cleanedToken s) <;> simp

/-- C6 witness. -/
theorem c6_polarity_layering_witness :
    Inter.determine_transaction_type (strL "PAGAMENTO CONTA") ⟨50, 0⟩ .debit
      = .credit :=
  (c6_polarity_layering (strL "PAGAMENTO CONTA") ⟨50, 0⟩ .debit).1 (by decide)

/-! ## Claim C7 -/

/-- C7, counterexample: the description `LOJA04/21` contains the pair `04/21`
with no currency token or date field adjacent (the neighbour is the letter
`A`), yet the classifier does not fire: the regex word boundary also rejects
adjacency to letters, not only to digits. -/
theorem c7_letter_adjacent_pair_not_classified :
    containsSub (strL "04/21") (strL "LOJA04/21") = true
    ∧ Itau.is_installment_transaction (strL "LOJA04/21") none none none
        = .ok false := by decide

theorem boundaryBeforeOk_iff (s : Str) (i : Nat) :
    Itau.boundaryBeforeOk s i = true ↔
      (i = 0 ∨ s[i-1]? = none ∨ ∃ p, s[i-1]? = some p ∧ ¬wC p) := by
  unfold Itau.boundaryBeforeOk
  cases i with
  | zero => simp
  | succ j =>
    simp only [Nat.add_sub_cancel]
    split
    · rename_i p hp; simp [hp]
    · rename_i hp; simp [hp]

theorem boundaryAfterOk_iff (s : Str) (i : Nat) :
    Itau.boundaryAfterOk s i = true ↔
      (s[i+5]? = none ∨ ∃ c, s[i+5]? = some c ∧ ¬wC c) := by
  unfold Itau.boundaryAfterOk
  split
  · rename_i c hc; simp [hc]
  · rename_i hc; simp [hc]

theorem hasInstPattern_iff (s : Str) :
    Itau.hasInstPattern s = true ↔
    ∃ (i : Nat) (d1 d2 d3 d4 : Char),
      s[i]? = some d1 ∧ s[i+1]? = some d2 ∧ s[i+2]? = some '/' ∧
      s[i+3]? = some d3 ∧ s[i+4]? = some d4 ∧
      dC d1 ∧ dC d2 ∧ dC d3 ∧ dC d4 ∧
      (i = 0 ∨ s[i-1]? = none ∨ ∃ p, s[i-1]? = some p ∧ ¬wC p) ∧
      (s[i+5]? = none ∨ ∃ c, s[i+5]? = some c ∧ ¬wC c) := by
  constructor
  · intro h
    obtain ⟨i, _, hm⟩ := List.any_eq_true.mp h
    unfold Itau.ipMatchAt at hm
    revert hm
    cases h1 : s[i]? with
    | none => intro hm; simp at hm
    | some d1 =>
    cases h2 : s[i + 1]? with
    | none => intro hm; simp at hm
    | some d2 =>
    cases h3 : s[i + 2]? with
    | none => intro hm; simp at hm
    | some sl =>
    cases h4 : s[i + 3]? with
    | none => intro hm; simp at hm
    | some d3 =>
    cases h5 : s[i + 4]? with
    | none => intro hm; simp at hm
    | some d4 =>
    intro hm
    simp only [Bool.and_eq_true, decide_eq_true_eq] at hm
    obtain ⟨⟨⟨⟨⟨⟨hd1, hd2⟩, hsl⟩, hd3⟩, hd4⟩, hbefore⟩, hafter⟩ := hm
    subst hsl
    exact ⟨i, d1, d2, d3, d4, h1, h2, h3, h4, h5, hd1, hd2, hd3, hd4,
      (boundaryBeforeOk_iff s i).mp hbefore, (boundaryAfterOk_iff s i).mp hafter⟩
  · rintro ⟨i, d1, d2, d3, d4, h1, h2, h3, h4, h5, hd1, hd2, hd3, hd4, hbefore, hafter⟩
    apply List.any_eq_true.mpr
    have hlen : i < s.length := by
      by_contra hge
      rw [List.getElem?_eq_none (by omega)] at h1
      exact Option.noConfusion h1
    refine ⟨i, List.mem_range.mpr hlen, ?_⟩
    unfold Itau.ipMatchAt
    rw [h1, h2, h3, h4, h5]
    simp [hd1, hd2, hd3, hd4, (boundaryBeforeOk_iff s i).mpr hbefore,
      (boundaryAfterOk_iff s i).mpr hafter]

/-- C7, amended: with only a description given, the classifier fires exactly
when a two-digit/two-digit pair `NN/NN` occurs with no word character
(letter, digit or underscore — the regex `\b` rule) immediately adjacent on
either side.  Adjacency to the digits of a currency amount or a date token
therefore suppresses the signal, but so does adjacency to a letter. -/
theorem c7_pattern_signal_iff_word_bounded_pair (desc : Str) :
    Itau.is_installment_transaction desc none none none = .ok true ↔
    ∃ (i : Nat) (d1 d2 d3 d4 : Char),
      desc[i]? = some d1 ∧ desc[i+1]? = some d2 ∧ desc[i+2]? = some '/' ∧
      desc[i+3]? = some d3 ∧ desc[i+4]? = some d4 ∧
      dC d1 ∧ dC d2 ∧ dC d3 ∧ dC d4 ∧
      (i = 0 ∨ desc[i-1]? = none ∨ ∃ p, desc[i-1]? = some p ∧ ¬wC p) ∧
      (desc[i+5]? = none ∨ ∃ c, desc[i+5]? = some c ∧ ¬wC c) := by
  rw [is_installment_no_stmt, ← hasInstPattern_iff desc]
  constructor
  · intro h
    have := Except.ok.inj h
    simp only [Bool.and_eq_true] at this
    exact this.2
  · intro h
    have hne : desc ≠ [] := by
      intro he
      rw [he] at h
      simp [Itau.hasInstPattern] at h
    simp [h, hne]

/-! ## Claim C8 -/

/-- C8, counterexample: a transaction whose date does not split into three
parts is silently dropped by the Deduplicator — the output is empty, so the
transaction is not represented at all. -/
theorem c8_unsplittable_date_dropped :
    App.deduplicate_transactions 2025
      [{ date := strL "nodate", description := strL "ALPHA SHOP", amount := ⟨7, 0⟩,
         transaction_type := .debit }] = some [] := by decide

theorem mem_insertByYear {q p : Int × Transaction} :
    ∀ {l : List (Int × Transaction)}, q ∈ App.insertByYear p l → q = p ∨ q ∈ l
  | [], h => by simpa [App.insertByYear] using h
  | r :: rest, h => by
    simp only [App.insertByYear] at h
    split at h
    · rcases List.mem_cons.mp h with h1 | h2
      · exact Or.inr (List.mem_cons.mpr (Or.inl h1))
      · rcases mem_insertByYear h2 with h3 | h4
        · exact Or.inl h3
        · exact Or.inr (List.mem_cons.mpr (Or.inr h4))
    · rcases List.mem_cons.mp h with h1 | h2
      · exact Or.inl h1
      · exact Or.inr h2

theorem mem_sortPairsByYear_aux {q : Int × Transaction} :
    ∀ (l acc : List (Int × Transaction)),
      q ∈ l.foldl (fun acc p => App.insertByYear p acc) acc → q ∈ acc ∨ q ∈ l := by
  intro l
  induction l with
  | nil => intro acc h; exact Or.inl h
  | cons p rest ih =>
    intro acc h
    rcases ih (App.insertByYear p acc) h with h1 | h2
    · rcases mem_insertByYear h1 with h3 | h4
      · exact Or.inr (by simp [h3])
      · exact Or.inl h4
    · exact Or.inr (List.mem_cons.mpr (Or.inr h2))

theorem mem_sortPairsByYear {q : Int × Transaction} {l : List (Int × Transaction)}
    (h : q ∈ App.sortPairsByYear l) : q ∈ l := by
  rcases mem_sortPairsByYear_aux l [] h with h1 | h2
  · simp at h1
  · exact h2

theorem mem_validCandidates {cy : Int} {g : List Transaction} {p : Int × Transaction}
    (h : p ∈ App.validCandidates cy g) : p.2 ∈ g := by
  obtain ⟨t, ht, heq⟩ := List.mem_filterMap.mp h
  cases h1 : (splitOnChar '/' t.date)[2]? with
  | none => simp [h1] at heq
  | some ys =>
    simp only [h1] at heq
    cases h2 : pyInt? ys with
    | none => simp [h2] at heq
    | some y =>
      simp only [h2] at heq
      by_cases hy : 2020 ≤ y ∧ y ≤ cy
      · rw [if_pos hy] at heq
        have h3 := Option.some.inj heq
        rw [← h3]
        exact ht
      · rw [if_neg hy] at heq
        simp at heq

theorem chooseRep_mem {cy : Int} {d m : Str} {g : List Transaction} {t : Transaction}
    (h : App.chooseRep cy d m g = some t) : t ∈ g := by
  match g with
  | [] => simp [App.chooseRep] at h
  | [u] =>
    simp only [App.chooseRep, Option.some.injEq] at h
    simp [← h]
  | g0 :: g1 :: gs =>
    simp only [App.chooseRep] at h
    revert h
    cases hv : App.validCandidates cy (g0 :: g1 :: gs) with
    | nil =>
      intro h
      simp only [Option.some.injEq] at h
      simp [← h]
    | cons v vs =>
      cases pyInt? m with
      | none => intro h; simp at h
      | some tmv =>
        cases pyInt? d with
        | none => intro h; simp at h
        | some dv =>
          intro h
          simp only [] at h
          split at h
          · split at h
            · -- find? branch
              cases hf : (App.sortPairsByYear (v :: vs)).find? (fun p => p.1 = 2024) with
              | none => rw [hf] at h; simp at h
              | some p =>
                rw [hf] at h
                simp only [Option.some.injEq] at h
                have hp := List.mem_of_find?_eq_some hf
                have hp2 : p ∈ App.validCandidates cy (g0 :: g1 :: gs) := by
                  rw [hv]
                  exact mem_sortPairsByYear hp
                rw [← h]
                exact mem_validCandidates hp2
            · -- sorted head branch
              revert h
              cases hs : App.sortPairsByYear (v :: vs) with
              | nil => intro h; simp at h
              | cons p ps =>
                intro h
                simp only [Option.some.injEq] at h
                have hp : p ∈ App.sortPairsByYear (v :: vs) := by simp [hs]
                have hp2 : p ∈ App.validCandidates cy (g0 :: g1 :: gs) := by
                  rw [hv]
                  exact mem_sortPairsByYear hp
                rw [← h]
                exact mem_validCandidates hp2
          · revert h
            cases hs : App.sortPairsByYear (v :: vs) with
            | nil => intro h; simp at h
            | cons p ps =>
              intro h
              simp only [Option.some.injEq] at h
              have hp : p ∈ App.sortPairsByYear (v :: vs) := by simp [hs]
              have hp2 : p ∈ App.validCandidates cy (g0 :: g1 :: gs) := by
                rw [hv]
                exact mem_sortPairsByYear hp
              rw [← h]
              exact mem_validCandidates hp2

theorem addToGroups_self :
    ∀ (gs : List (App.DedupKey × List Transaction)) (k : App.DedupKey) (t : Transaction),
      ∃ g, (k, g) ∈ App.addToGroups gs k t ∧ t ∈ g
  | [], k, t => ⟨[t], by simp [App.addToGroups], by simp⟩
  | (k', g') :: rest, k, t => by
    simp only [App.addToGroups]
    by_cases hk : k' = k
    · rw [if_pos hk]
      exact ⟨g' ++ [t], by simp [hk], by simp⟩
    · rw [if_neg hk]
      obtain ⟨g, hm, htg⟩ := addToGroups_self rest k t
      exact ⟨g, List.mem_cons.mpr (Or.inr hm), htg⟩

theorem addToGroups_preserve {k0 : App.DedupKey} {g0 : List Transaction}
    {t0 : Transaction} :
    ∀ (gs : List (App.DedupKey × List Transaction)),
      (k0, g0) ∈ gs → t0 ∈ g0 → ∀ (k : App.DedupKey) (t : Transaction),
      ∃ g', (k0, g') ∈ App.addToGroups gs k t ∧ t0 ∈ g'
  | [], h, _, _, _ => absurd h (List.not_mem_nil _)
  | (k', g') :: rest, h, ht, k, t => by
    simp only [App.addToGroups]
    by_cases hk : k' = k
    · rw [if_pos hk]
      rcases List.mem_cons.mp h with h1 | h2
      · have hke : k0 = k' := congrArg Prod.fst h1
        have hge : g0 = g' := congrArg Prod.snd h1
        exact ⟨g' ++ [t], by simp [hke], by rw [← hge]; exact List.mem_append_left _ ht⟩
      · exact ⟨g0, List.mem_cons.mpr (Or.inr h2), ht⟩
    · rw [if_neg hk]
      rcases List.mem_cons.mp h with h1 | h2
      · exact ⟨g0, List.mem_cons.mpr (Or.inl h1), ht⟩
      · obtain ⟨g'', hm, ht''⟩ := addToGroups_preserve rest h2 ht k t
        exact ⟨g'', List.mem_cons.mpr (Or.inr hm), ht''⟩

theorem foldGroups_mem {t : Transaction} {k : App.DedupKey}
    (hk : App.dedupKey? t = some k) :
    ∀ (ts : List Transaction) (gs : List (App.DedupKey × List Transaction)),
      (t ∈ ts ∨ ∃ g, (k, g) ∈ gs ∧ t ∈ g) →
      ∃ g, (k, g) ∈ ts.foldl
        (fun gs t =>
          match App.dedupKey? t with
          | some k => App.addToGroups gs k t
          | none => gs) gs ∧ t ∈ g
  | [], gs, h => by
    rcases h with h1 | h2
    · exact absurd h1 (List.not_mem_nil _)
    · exact h2
  | u :: us, gs, h => by
    simp only [List.foldl_cons]
    apply foldGroups_mem hk us
    rcases h with h1 | ⟨g, hg, htg⟩
    · rcases List.mem_cons.mp h1 with h2 | h3
      · right
        subst h2
        rw [hk]
        exact addToGroups_self gs k t
      · exact Or.inl h3
    · right
      cases hu : App.dedupKey? u with
      | none => exact ⟨g, hg, htg⟩
      | some ku => exact addToGroups_preserve gs hg htg ku u

/-- Every member of every group carries the group's key. -/
def GroupsWF (gs : List (App.DedupKey × List Transaction)) : Prop :=
  ∀ k g, (k, g) ∈ gs → ∀ u ∈ g, App.dedupKey? u = some k

theorem addToGroups_wf {k : App.DedupKey} {t : Transaction} :
    ∀ (gs : List (App.DedupKey × List Transaction)), GroupsWF gs →
      App.dedupKey? t = some k → GroupsWF (App.addToGroups gs k t)
  | [], _, hk => by
    intro k' g' hm u hu
    simp only [App.addToGroups, List.mem_singleton] at hm
    have h1 : k' = k := congrArg Prod.fst hm
    have h2 : g' = [t] := congrArg Prod.snd hm
    rw [h2] at hu
    simp only [List.mem_singleton] at hu
    rw [hu, h1]
    exact hk
  | (k0, g0) :: rest, hwf, hk => by
    intro k' g' hm u hu
    simp only [App.addToGroups] at hm
    by_cases hke : k0 = k
    · rw [if_pos hke] at hm
      rcases List.mem_cons.mp hm with h1 | h2
      · have e1 : k' = k0 := congrArg Prod.fst h1
        have e2 : g' = g0 ++ [t] := congrArg Prod.snd h1
        rw [e2] at hu
        rcases List.mem_append.mp hu with h3 | h4
        · rw [e1]
          exact hwf k0 g0 (by simp) u h3
        · simp only [List.mem_singleton] at h4
          rw [h4, e1, hke]
          exact hk
      · exact hwf k' g' (List.mem_cons.mpr (Or.inr h2)) u hu
    · rw [if_neg hke] at hm
      rcases List.mem_cons.mp hm with h1 | h2
      · exact hwf k' g' (List.mem_cons.mpr (Or.inl h1)) u hu
      · have hwf' : GroupsWF rest := fun a b hm2 => hwf a b (List.mem_cons.mpr (Or.inr hm2))
        exact addToGroups_wf rest hwf' hk k' g' h2 u hu

theorem foldGroups_wf :
    ∀ (ts : List Transaction) (gs : List (App.DedupKey × List Transaction)),
      GroupsWF gs →
      GroupsWF (ts.foldl
        (fun gs t =>
          match App.dedupKey? t with
          | some k => App.addToGroups gs k t
          | none => gs) gs)
  | [], gs, h => h
  | u :: us, gs, h => by
    simp only [List.foldl_cons]
    apply foldGroups_wf us
    cases hu : App.dedupKey? u with
    | none => exact h
    | some ku => exact addToGroups_wf (t := u) gs h hu

theorem mapMOpt_mem {α β : Type _} {f : α → Option β} :
    ∀ {l : List α} {out : List β}, App.mapMOpt f l = some out →
      ∀ {x : α}, x ∈ l → ∃ y, f x = some y ∧ y ∈ out
  | [], out, h, x, hx => absurd hx (List.not_mem_nil x)
  | a :: rest, out, h, x, hx => by
    simp only [App.mapMOpt] at h
    cases hfa : f a with
    | none => rw [hfa] at h; simp at h
    | some b =>
      rw [hfa] at h
      cases hrest : App.mapMOpt f rest with
      | none => rw [hrest] at h; simp at h
      | some bs =>
        rw [hrest] at h
        simp only [Option.some.injEq] at h
        rcases List.mem_cons.mp hx with h1 | h2
        · subst h1
          exact ⟨b, hfa, by rw [← h]; simp⟩
        · obtain ⟨y, hy, hyb⟩ := mapMOpt_mem hrest h2
          exact ⟨y, hy, by rw [← h]; exact List.mem_cons.mpr (Or.inr hyb)⟩

/-- C8, amended: every transaction whose date splits into exactly three
parts is represented in the Deduplicator's output — some output record shares
its dedup key — and a group none of whose members has a plausible year keeps
its first-seen member; but a transaction whose date does not split into
three parts is dropped at grouping time. -/
theorem c8_parseable_transactions_represented :
    (∀ (currentYear : Int) (ts out : List Transaction) (t : Transaction)
        (k : App.DedupKey),
      App.deduplicate_transactions currentYear ts = some out → t ∈ ts →
      App.dedupKey? t = some k →
      ∃ t', t' ∈ out ∧ App.dedupKey? t' = some k)
    ∧ (∀ (currentYear : Int) (d m : Str) (g : List Transaction) (h : g ≠ []),
      App.validCandidates currentYear g = [] →
      App.chooseRep currentYear d m g = some (g.head h)) := by
  constructor
  · intro cy ts out t k hded ht hk
    obtain ⟨g, hg, htg⟩ := foldGroups_mem hk ts [] (Or.inl ht)
    have hwf : GroupsWF (App.buildGroups ts) := foldGroups_wf ts [] (by
      intro a b hm
      exact absurd hm (List.not_mem_nil _))
    simp only [App.deduplicate_transactions] at hded
    obtain ⟨t', hft', ht'out⟩ := mapMOpt_mem hded (x := (k, g)) hg
    have ht'g : t' ∈ g := chooseRep_mem hft'
    exact ⟨t', ht'out, hwf k g hg t' ht'g⟩
  · intro cy d m g h hvalid
    match g, h with
    | [t], _ => simp [App.chooseRep]
    | g0 :: g1 :: gs, _ =>
      simp [App.chooseRep, hvalid]

/-- C8 witness: in a group with years 2024 and 2025 for month 11, the input
transaction dated 2025 is represented in the output by the group member dated
2024 (same dedup key). -/
theorem c8_parseable_transactions_represented_witness :
    ∃ t', t' ∈ [({ date := strL "05/11/2024", description := strL "ACME STORE",
                    amount := ⟨150, 0⟩, transaction_type := .debit,
                    reference := some (strL "a") } : Transaction)]
      ∧ App.dedupKey? t' =
          some (strL "05", strL "11", strL "ACME STORE", ⟨150, 0⟩) :=
  c8_parseable_transactions_represented.1 2025
    [{ date := strL "05/11/2025", description := strL "ACME STORE",
       amount := ⟨150, 0⟩, transaction_type := .debit,
       reference := some (strL "b") },
     { date := strL "05/11/2024", description := strL "ACME STORE",
       amount := ⟨150, 0⟩, transaction_type := .debit,
       reference := some (strL "a") }]
    [{ date := strL "05/11/2024", description := strL "ACME STORE",
       amount := ⟨150, 0⟩, transaction_type := .debit,
       reference := some (strL "a") }]
    { date := strL "05/11/2025", description := strL "ACME STORE",
      amount := ⟨150, 0⟩, transaction_type := .debit,
      reference := some (strL "b") }
    (strL "05", strL "11", strL "ACME STORE", ⟨150, 0⟩)
    (by decide) (by decide) (by decide)

/-! ## Claim C9 -/

theorem interTryPatterns_pos :
    ∀ (ps : List RE) (dy : Option Str) (cy : Int) (text fn : Str)
      (card : Option Str) (line : Str) (tx : Transaction),
      Inter.tryPatterns dy cy text fn card line ps = some tx →
      pfLt pf0 tx.amount = true
  | [], _, _, _, _, _, _, tx, h => by simp [Inter.tryPatterns] at h
  | p :: rest, dy, cy, text, fn, card, line, tx, h => by
    simp only [Inter.tryPatterns] at h
    revert h
    cases hr : reSearch p false line with
    | none =>
      intro h
      exact interTryPatterns_pos rest dy cy text fn card line tx h
    | some r =>
      intro h
      split at h
      · exact interTryPatterns_pos rest dy cy text fn card line tx h
      · split at h
        · exact interTryPatterns_pos rest dy cy text fn card line tx h
        · split at h
          · exact interTryPatterns_pos rest dy cy text fn card line tx h
          · rename_i hle
            simp only [Option.some.injEq] at h
            rw [← h]
            exact pfLe_false_lt (by simpa using hle)

theorem interLoop_pos :
    ∀ (lines : List Str) (dy : Option Str) (cy : Int) (text fn : Str)
      (card : Option Str) (t : Transaction),
      t ∈ Inter.interLoop dy cy text fn card lines → pfLt pf0 t.amount = true
  | [], _, _, _, _, _, t, h => absurd h (List.not_mem_nil t)
  | line0 :: rest, dy, cy, text, fn, card, t, h => by
    simp only [Inter.interLoop] at h
    revert h
    split
    · intro h
      exact interLoop_pos rest dy cy text fn card t h
    · cases hcs : reSearch Inter.cardSectionPat false (pyStrip line0) with
      | some r =>
        intro h
        exact interLoop_pos rest dy cy text fn _ t h
      | none =>
        cases hm : Inter.tryPatterns dy cy text fn
            (match reMatchAt Inter.cardLinePat false (pyStrip line0) with
             | some (_, caps) => some (getCap 1 caps)
             | none => card)
            (pyStrip line0) Inter.transaction_patterns with
        | some tx =>
          intro h
          rcases List.mem_cons.mp h with h1 | h2
          · rw [h1]
            exact interTryPatterns_pos _ _ _ _ _ _ _ _ hm
          · exact interLoop_pos rest dy cy text fn _ t h2
        | none =>
          intro h
          exact interLoop_pos rest dy cy text fn _ t h

theorem emitTx_pos {ctx : Itau.Ctx} {card : Option Str} {ds desc : Str}
    {amount : PyF} {tt : TType} {t : Transaction}
    (h : t ∈ Itau.emitTx ctx card ds desc amount tt) : pfLt pf0 t.amount = true := by
  revert h
  unfold Itau.emitTx
  split
  · rename_i hpos
    intro h
    simp only [List.mem_singleton] at h
    rw [h]
    exact hpos
  · intro h
    exact absurd h (List.not_mem_nil t)

set_option maxHeartbeats 2000000 in
theorem itauStep_pos (ctx : Itau.Ctx) (card : Option Str) (inSec : Bool)
    (line0 : Str) (next : Option Str) (t : Transaction)
    (h : t ∈ (Itau.itauStep ctx card inSec line0 next).1) :
    pfLt pf0 t.amount = true := by
  revert h
  simp only [Itau.itauStep]
  repeat' split
  all_goals intro h
  all_goals
    first
      | exact absurd h (List.not_mem_nil t)
      | exact emitTx_pos h

theorem itauLoop_pos :
    ∀ (n : Nat) (lines : List Str), lines.length ≤ n →
      ∀ (ctx : Itau.Ctx) (card : Option Str) (inSec : Bool) (t : Transaction),
        t ∈ Itau.itauLoop ctx card inSec lines → pfLt pf0 t.amount = true := by
  intro n
  induction n with
  | zero =>
    intro lines hl ctx card inSec t h
    cases lines with
    | nil => exact absurd h (List.not_mem_nil t)
    | cons _ _ => simp at hl
  | succ n ih =>
    intro lines hl ctx card inSec t h
    cases lines with
    | nil => exact absurd h (List.not_mem_nil t)
    | cons line0 rest =>
      simp only [Itau.itauLoop] at h
      rcases hstep : Itau.itauStep ctx card inSec line0 rest.head? with ⟨txs, c2, i2, skip⟩
      rw [hstep] at h
      simp only [] at h
      rcases List.mem_append.mp h with h1 | h2
      · exact itauStep_pos ctx card inSec line0 rest.head? t (by rw [hstep]; exact h1)
      · revert h2
        split
        · cases rest with
          | nil => intro h2; exact absurd h2 (List.not_mem_nil t)
          | cons r1 rest2 =>
            intro h2
            apply ih rest2 (by simp only [List.length_cons] at hl; omega) _ _ _ _ h2
        · intro h2
          apply ih rest (by simp only [List.length_cons] at hl; omega) _ _ _ _ h2

/-- C9: every transaction record either extraction pipeline produces has a
strictly positive amount — the non-positive-amount guards at every creation
site ensure nothing else is ever stored. -/
theorem c9_extracted_amounts_positive :
    (∀ (currentYear : Int) (text fn : Str) (ts : List Transaction),
      Inter.extract_transactions_from_text currentYear text fn = some ts →
      ∀ t ∈ ts, pfLt pf0 t.amount = true)
    ∧ (∀ (currentYear : Int) (text fn : Str) (ts : List Transaction),
      Itau.extract_transactions_from_text currentYear text fn = some ts →
      ∀ t ∈ ts, pfLt pf0 t.amount = true) := by
  constructor
  · intro cy text fn ts h t ht
    revert h
    unfold Inter.extract_transactions_from_text
    cases hdy : Inter.extract_document_year text fn with
    | none => intro h; exact absurd h (by simp)
    | some dy =>
      intro h
      simp only [Option.some.injEq] at h
      rw [← h] at ht
      exact interLoop_pos _ _ _ _ _ _ _ ht
  · intro cy text fn ts h t ht
    revert h
    unfold Itau.extract_transactions_from_text
    simp only []
    split
    · intro h; exact absurd h (by simp)
    · intro h
      simp only [Option.some.injEq] at h
      rw [← h] at ht
      exact itauLoop_pos (splitOnChar '\n' text).length _ (Nat.le_refl _) _ _ _ _ ht

/-- C9 witness: a concrete Itaú run yields a transaction of amount 50, which
the theorem certifies positive. -/
theorem c9_extracted_amounts_positive_witness :
    pfLt pf0 (⟨50, 0⟩ : PyF) = true :=
  c9_extracted_amounts_positive.2 2025
    (strL "Vencimento: 17/03/2025\nLançamentos:\n20/02 COMPRA LOJA LEGAL 50,00")
    (strL "FATURA_17_03_25.pdf")
    [{ date := strL "20/02/2025", description := strL "COMPRA LOJA LEGAL",
       amount := ⟨50, 0⟩, transaction_type := .debit,
       card_number := some (strL "Itau-Default"),
       reference := some (strL "Itau-FATURA_17_03_25.pdf") }]
    (by decide)
    { date := strL "20/02/2025", description := strL "COMPRA LOJA LEGAL",
      amount := ⟨50, 0⟩, transaction_type := .debit,
      card_number := some (strL "Itau-Default"),
      reference := some (strL "Itau-FATURA_17_03_25.pdf") }
    (by decide)

/-! ## Claim C10 -/

/-- C10, counterexample: the token `.-5,0` contains both separators, so the
cleaning step deletes the dots and exposes the interior minus as a leading
sign; both parsers return the negative value `-5.0` (typed debit resp.
credit), refuting "the returned float is never negative". -/
theorem c10_negative_amount_possible :
    pfLt (Itau.parse_amount (strL ".-5,0")).1 pf0 = true
    ∧ pfLt (Inter.parse_amount (strL ".-5,0")).1 pf0 = true
    ∧ Itau.parse_amount (strL ".-5,0") = (⟨-5, 0⟩, .debit)
    ∧ Inter.parse_amount (strL ".-5,0") = (⟨-5, 0⟩, .credit) := by decide

theorem contains_false_iff (c : Char) : ∀ (s : Str), containsChar c s = false ↔ c ∉ s
  | [] => by simp [containsChar]
  | a :: rest => by
    have ih := contains_false_iff c rest
    simp only [containsChar, List.contains_cons, Bool.or_eq_false_iff, List.mem_cons]
    constructor
    · rintro ⟨h1, h2⟩ hor
      rcases hor with h3 | h4
      · rw [h3] at h1
        simp at h1
      · exact (ih.mp h2) h4
    · intro hn
      refine ⟨?_, ?_⟩
      · simp only [beq_eq_false_iff_ne, ne_eq]
        intro he
        exact hn (Or.inl he)
      · exact ih.mpr fun hm => hn (Or.inr hm)

theorem mem_pyStrip {c : Char} {s : Str} (h : c ∈ pyStrip s) : c ∈ s := by
  unfold pyStrip at h
  rw [List.mem_reverse] at h
  have h2 := (List.dropWhile_sublist _).mem h
  rw [List.mem_reverse] at h2
  exact (List.dropWhile_sublist _).mem h2

theorem not_mem_removeAll_self (a : Char) (s : Str) : a ∉ removeAll a s := by
  intro h
  obtain ⟨-, hne⟩ := List.mem_filter.mp h
  simp at hne

theorem mem_removeAll {a c : Char} {s : Str} (h : c ∈ removeAll a s) : c ∈ s :=
  (List.mem_filter.mp h).1

theorem mem_mapReplace {a b c : Char} {s : Str} (h : c ∈ mapReplace a b s) :
    c = b ∨ c ∈ s := by
  obtain ⟨x, hx, hfx⟩ := List.mem_map.mp h
  by_cases he : x = a
  · rw [he] at hfx
    simp at hfx
    exact Or.inl hfx.symm
  · rw [if_neg he] at hfx
    rw [← hfx]
    exact Or.inr hx

theorem itau_cleanSeparators_no_minus {s : Str} (h : '-' ∉ s) :
    '-' ∉ Itau.cleanSeparators s := by
  unfold Itau.cleanSeparators
  split
  · split
    · intro hm
      rcases mem_mapReplace hm with h1 | h2
      · exact absurd h1 (by decide)
      · exact h (mem_removeAll h2)
    · intro hm
      rcases mem_mapReplace hm with h1 | h2
      · exact absurd h1 (by decide)
      · exact h h2
  · exact h

theorem inter_cleanSeparators_no_minus {s : Str} (h : '-' ∉ s) :
    '-' ∉ Inter.cleanSeparators s := by
  unfold Inter.cleanSeparators
  split
  · intro hm
    rcases mem_mapReplace hm with h1 | h2
    · exact absurd h1 (by decide)
    · exact h (mem_removeAll h2)
  · split
    · intro hm
      rcases mem_mapReplace hm with h1 | h2
      · exact absurd h1 (by decide)
      · exact h h2
    · exact h

theorem pySign_no_minus {t : Str} (h : '-' ∉ t) :
    (pySign t).1 = false ∧ ∀ c ∈ (pySign t).2, c ∈ t := by
  unfold pySign
  split
  · exact absurd (List.mem_cons_self _ _) h
  · exact ⟨rfl, fun c hc => List.mem_cons.mpr (Or.inr hc)⟩
  · exact ⟨rfl, fun c hc => hc⟩

theorem pfNormAux_nonneg : ∀ (e : Nat) (n : Int), 0 ≤ n → 0 ≤ (pfNormAux n e).1
  | 0, n, h => h
  | e + 1, n, h => by
    simp only [pfNormAux]
    split
    · exact pfNormAux_nonneg e (n / 10) (Int.ediv_nonneg h (by norm_num))
    · exact h

theorem mk'_num_nonneg {n : Int} (e : Nat) (h : 0 ≤ n) : 0 ≤ (PyF.mk' n e).num := by
  unfold PyF.mk'
  have := pfNormAux_nonneg e n h
  rcases hp : pfNormAux n e with ⟨n', e'⟩
  rw [hp] at this
  exact this

theorem pfLe_pf0_of_num_nonneg {q : PyF} (h : 0 ≤ q.num) : pfLe pf0 q = true := by
  simp only [pfLe, pf0, decide_eq_true_eq]
  simpa using h

theorem pyFloat_nonneg {u : Str} (hu : '-' ∉ u) {q : PyF}
    (h : pyFloat? u = some q) : 0 ≤ q.num := by
  have hstrip : '-' ∉ pyStrip u := fun hm => hu (mem_pyStrip hm)
  obtain ⟨hsgn, -⟩ := pySign_no_minus hstrip
  unfold pyFloat? at h
  rw [hsgn] at h
  simp only [if_false, Bool.false_eq_true] at h
  revert h
  split
  · split
    · intro h
      have := Option.some.inj h
      rw [← this]
      exact mk'_num_nonneg _ (Int.natCast_nonneg _)
    · intro h; simp at h
  · split
    · intro h
      have := Option.some.inj h
      rw [← this]
      exact mk'_num_nonneg _ (by positivity)
    · intro h; simp at h
  · intro h; simp at h

theorem itau_parse_amount_nonneg {s : Str} (hc : '-' ∉ Itau.cleanedToken s) :
    pfLe pf0 (Itau.parse_amount s).1 = true := by
  unfold Itau.parse_amount
  cases hp : pyFloat? (Itau.cleanedToken s) with
  | none => simp [hp]; decide
  | some q =>
    simp only [hp]
    exact pfLe_pf0_of_num_nonneg (pyFloat_nonneg hc hp)

theorem inter_parse_amount_nonneg {s : Str} (hc : '-' ∉ Inter.cleanedToken s) :
    pfLe pf0 (Inter.parse_amount s).1 = true := by
  unfold Inter.parse_amount
  cases hp : pyFloat? (Inter.cleanedToken s) with
  | none => simp [hp]; decide
  | some q =>
    simp only [hp]
    exact pfLe_pf0_of_num_nonneg (pyFloat_nonneg hc hp)

/-- C10, amended: `parse_amount` is total (conversion failure yields the
`(0.0, 'unknown')` sentinel, never an exception), and the returned magnitude
is non-negative whenever the stripped token starts with `-` (all minus signs
are then deleted before conversion) or the token contains no `-` at all; the
counterexample shows it can be negative outside these conditions. -/
theorem c10_nonnegative_for_sign_clean_tokens (s : Str)
    (h : (pyStrip s).head? = some '-' ∨ containsChar '-' s = false) :
    pfLe pf0 (Itau.parse_amount s).1 = true
    ∧ pfLe pf0 (Inter.parse_amount s).1 = true := by
  constructor
  · apply itau_parse_amount_nonneg
    unfold Itau.cleanedToken
    rcases h with h1 | h2
    · have hsign : Itau.signIsCredit s = true := by
        simp [Itau.signIsCredit, h1]
      rw [hsign]
      simp only [if_true]
      apply itau_cleanSeparators_no_minus
      intro hm
      exact not_mem_removeAll_self '-' s (mem_pyStrip hm)
    · have hns : '-' ∉ s := (contains_false_iff '-' s).mp h2
      apply itau_cleanSeparators_no_minus
      split
      · intro hm
        exact not_mem_removeAll_self '-' s (mem_pyStrip hm)
      · exact hns
  · apply inter_parse_amount_nonneg
    unfold Inter.cleanedToken
    rcases h with h1 | h2
    · have hsign : Inter.signIsDebit s = true := by
        simp [Inter.signIsDebit, h1]
      rw [hsign]
      simp only [if_true]
      apply inter_cleanSeparators_no_minus
      intro hm
      have hm2 := mem_removeAll (mem_removeAll (mem_pyStrip hm))
      exact not_mem_removeAll_self '-' s hm2
    · have hns : '-' ∉ s := (contains_false_iff '-' s).mp h2
      apply inter_cleanSeparators_no_minus
      split
      · intro hm
        have hm2 := mem_removeAll (mem_removeAll (mem_pyStrip hm))
        exact not_mem_removeAll_self '-' s hm2
      · exact hns

/-- C10 witness. -/
theorem c10_nonnegative_for_sign_clean_tokens_witness :
    pfLe pf0 (Itau.parse_amount (strL "5,00")).1 = true
    ∧ pfLe pf0 (Inter.parse_amount (strL "5,00")).1 = true :=
  c10_nonnegative_for_sign_clean_tokens (strL "5,00") (Or.inr (by decide))
